import Mathlib

/-!
Verification of the Qalam gap-buffer (src/src/core/buffer.c) against its
natural-language specification.  The buffer stores text as UTF-16 code units
(wchar_t) in a contiguous array with a movable gap; the public API speaks
UTF-8.  We embed the C code shallowly: the wchar_t array becomes a
List Nat (one element per code unit, gap cells hold junk), size_t becomes
Nat (all subtractions in the source are guarded, so no wrap-around occurs on
the states we reason about), and fallible operations return a result code
paired with the successor state.
-/

namespace Qalam

/-- Result codes from qalam.h (only the ones the buffer uses). -/
inductive QalamResult where
  | ok
  | errNullPointer
  | errOutOfMemory
  | errInvalidPosition
  | errInvalidRange
  | errFileNotFound
  | errFileAccess
  | errFileRead
  | errFileWrite
  | errEncoding
  deriving DecidableEq, Repr

/-- Check if a code unit is a high surrogate (buffer.c is_high_surrogate). -/
def is_high_surrogate (ch : Nat) : Bool := 0xD800 ≤ ch && ch ≤ 0xDBFF

/-- Check if a code unit is a low surrogate (buffer.c is_low_surrogate). -/
def is_low_surrogate (ch : Nat) : Bool := 0xDC00 ≤ ch && ch ≤ 0xDFFF

/-!
## Encoding boundary

The C code converts UTF-8 to UTF-16 through the platform calls
MultiByteToWideChar / WideCharToMultiByte, which are not part of the
repository.  Modelled from the spec: the encoding boundary converts between
the external byte-oriented representation and the internal fixed-width code
units, "preserving surrogate-pair integrity", and an encoding failure on
malformed input is reported (spec section 7).  We model the conversion as a
strict UTF-8 / UTF-16 codec over code points.
-/

/-- UTF-8 encoding of one Unicode scalar value as a list of bytes. -/
def utf8EncodeChar (c : Nat) : List Nat :=
  if c < 0x80 then [c]
  else if c < 0x800 then [0xC0 + c / 64, 0x80 + c % 64]
  else if c < 0x10000 then
    [0xE0 + c / 4096, 0x80 + (c / 64) % 64, 0x80 + c % 64]
  else
    [0xF0 + c / 262144, 0x80 + (c / 4096) % 64, 0x80 + (c / 64) % 64, 0x80 + c % 64]

/-- UTF-8 encoding of a list of scalar values. -/
def utf8Encode (cs : List Nat) : List Nat := (cs.map utf8EncodeChar).flatten

/-- Strict UTF-8 decoding: rejects overlong forms, surrogate code points,
values above 0x10FFFF, stray continuation bytes and truncated sequences.
The fuel argument only bounds the recursion: one unit of fuel is spent per
decoded character, and a character consumes at least one byte, so fuel equal
to the byte count (as supplied by utf8Decode below) never runs out. -/
def utf8DecodeF : Nat → List Nat → Option (List Nat)
  | _, [] => some []
  | 0, _ :: _ => none
  | fuel + 1, b :: bs =>
    if b < 0x80 then (utf8DecodeF fuel bs).map (fun cs => b :: cs)
    else if b < 0xC2 then none
    else if b < 0xE0 then
      if 1 ≤ bs.length ∧ 0x80 ≤ bs.getD 0 0 ∧ bs.getD 0 0 < 0xC0 then
        (utf8DecodeF fuel (bs.drop 1)).map
          (fun cs => ((b - 0xC0) * 64 + (bs.getD 0 0 - 0x80)) :: cs)
      else none
    else if b < 0xF0 then
      if 2 ≤ bs.length ∧ 0x80 ≤ bs.getD 0 0 ∧ bs.getD 0 0 < 0xC0 ∧
         0x80 ≤ bs.getD 1 0 ∧ bs.getD 1 0 < 0xC0 then
        if (b - 0xE0) * 4096 + (bs.getD 0 0 - 0x80) * 64 + (bs.getD 1 0 - 0x80) < 0x800 ∨
           (0xD800 ≤ (b - 0xE0) * 4096 + (bs.getD 0 0 - 0x80) * 64 + (bs.getD 1 0 - 0x80) ∧
            (b - 0xE0) * 4096 + (bs.getD 0 0 - 0x80) * 64 + (bs.getD 1 0 - 0x80) ≤ 0xDFFF) then
          none
        else
          (utf8DecodeF fuel (bs.drop 2)).map
            (fun cs => ((b - 0xE0) * 4096 + (bs.getD 0 0 - 0x80) * 64 + (bs.getD 1 0 - 0x80)) :: cs)
      else none
    else if b < 0xF5 then
      if 3 ≤ bs.length ∧ 0x80 ≤ bs.getD 0 0 ∧ bs.getD 0 0 < 0xC0 ∧
         0x80 ≤ bs.getD 1 0 ∧ bs.getD 1 0 < 0xC0 ∧
         0x80 ≤ bs.getD 2 0 ∧ bs.getD 2 0 < 0xC0 then
        if (b - 0xF0) * 262144 + (bs.getD 0 0 - 0x80) * 4096 +
             (bs.getD 1 0 - 0x80) * 64 + (bs.getD 2 0 - 0x80) < 0x10000 ∨
           0x10FFFF < (b - 0xF0) * 262144 + (bs.getD 0 0 - 0x80) * 4096 +
             (bs.getD 1 0 - 0x80) * 64 + (bs.getD 2 0 - 0x80) then
          none
        else
          (utf8DecodeF fuel (bs.drop 3)).map
            (fun cs =>
              ((b - 0xF0) * 262144 + (bs.getD 0 0 - 0x80) * 4096 +
                 (bs.getD 1 0 - 0x80) * 64 + (bs.getD 2 0 - 0x80)) :: cs)
      else none
    else none

/-- Strict UTF-8 decoding of a byte list. -/
def utf8Decode (bs : List Nat) : Option (List Nat) := utf8DecodeF bs.length bs

/-- UTF-16 encoding of one scalar value as one or two code units. -/
def utf16EncodeChar (c : Nat) : List Nat :=
  if c < 0x10000 then [c]
  else [0xD800 + (c - 0x10000) / 1024, 0xDC00 + (c - 0x10000) % 1024]

/-- UTF-16 encoding of a list of scalar values. -/
def utf16Encode (cs : List Nat) : List Nat := (cs.map utf16EncodeChar).flatten

/-- UTF-16 decoding: recombines surrogate pairs, fails on an unpaired
surrogate. -/
def utf16Decode : List Nat → Option (List Nat)
  | [] => some []
  | u :: us =>
    if is_high_surrogate u then
      match us with
      | v :: us1 =>
        if is_low_surrogate v then
          (utf16Decode us1).map
            (fun cs => (0x10000 + (u - 0xD800) * 1024 + (v - 0xDC00)) :: cs)
        else none
      | [] => none
    else if is_low_surrogate u then none
    else (utf16Decode us).map (fun cs => u :: cs)

/-- The UTF-8 to UTF-16 boundary (buffer.c utf8_to_utf16 /
MultiByteToWideChar): none models a conversion failure. -/
def utf8_to_utf16 (bytes : List Nat) : Option (List Nat) :=
  (utf8Decode bytes).map utf16Encode

/-- The UTF-16 to UTF-8 boundary (buffer.c utf16_to_utf8 /
WideCharToMultiByte): none models a conversion failure. -/
def utf16_to_utf8 (units : List Nat) : Option (List Nat) :=
  (utf16Decode units).map utf8Encode

/-!
## Data model (struct QalamBuffer, QalamCursor, QalamSelection)

The capacity field of the C struct always equals the allocated array size,
so we represent the array together with its capacity as a single list:
capacity is the list length, and the cells of the gap hold junk values
(the model writes 0 where C leaves memory uninitialized; the code never
reads a gap cell).
-/

/-- Cursor snapshot (editor.h QalamCursor). -/
structure QalamCursor where
  line : Nat
  column : Nat
  offset : Nat
  visual_column : Nat
  deriving DecidableEq, Repr

/-- Selection: two cursor snapshots plus flags (editor.h QalamSelection).
The C field named end is called endPos here because end is a Lean keyword. -/
structure QalamSelection where
  start : QalamCursor
  endPos : QalamCursor
  is_active : Bool
  is_rectangular : Bool
  deriving DecidableEq, Repr

/-- The gap buffer (buffer.c struct QalamBuffer).  The wchar_t filepath is a
list of code units. -/
structure QalamBuffer where
  data : List Nat
  gap_start : Nat
  gap_end : Nat
  cursor_line : Nat
  cursor_column : Nat
  line_count : Nat
  selection : QalamSelection
  filepath : List Nat
  modified : Bool
  readonly : Bool
  deriving DecidableEq, Repr

/-- Total allocated size in code units (the capacity field of the struct). -/
def capacity (b : QalamBuffer) : Nat := b.data.length

/-- buffer_gap_size. -/
def buffer_gap_size (b : QalamBuffer) : Nat := b.gap_end - b.gap_start

/-- buffer_content_length. -/
def buffer_content_length (b : QalamBuffer) : Nat := capacity b - buffer_gap_size b

/-- The logical content: text before the gap followed by text after it. -/
def logicalContent (b : QalamBuffer) : List Nat :=
  b.data.take b.gap_start ++ b.data.drop b.gap_end

/-- buffer_char_at_internal via buffer_logical_to_physical. -/
def buffer_char_at_internal (b : QalamBuffer) (pos : Nat) : Nat :=
  if pos < b.gap_start then b.data.getD pos 0
  else b.data.getD (pos + buffer_gap_size b) 0

/-- Number of newline code units in a list. -/
def count10 (l : List Nat) : Nat := l.count 10

/-- The structural well-formedness the C code maintains (invariant I1). -/
def BufferWF (b : QalamBuffer) : Prop :=
  b.gap_start ≤ b.gap_end ∧ b.gap_end ≤ b.data.length

instance (b : QalamBuffer) : Decidable (BufferWF b) := by
  unfold BufferWF; infer_instance

/-!
## Storage core (gap mechanics)
-/

/-- buffer_move_gap_to: relocate the gap so gap_start becomes pos.  The two
memmove calls become list surgery; the cells of the new gap keep the stale
values the C code leaves behind. -/
def buffer_move_gap_to (b : QalamBuffer) (pos : Nat) : QalamBuffer :=
  if pos = b.gap_start then b
  else if pos < b.gap_start then
    { b with
      data := b.data.take (b.gap_end - (b.gap_start - pos)) ++
              (b.data.drop pos).take (b.gap_start - pos) ++
              b.data.drop b.gap_end,
      gap_start := pos,
      gap_end := pos + buffer_gap_size b }
  else
    { b with
      data := b.data.take b.gap_start ++
              (b.data.drop b.gap_end).take (pos - b.gap_start) ++
              b.data.drop (b.gap_start + (pos - b.gap_start)),
      gap_start := pos,
      gap_end := pos + buffer_gap_size b }

/-- QALAM_BUFFER_MAX_SIZE: 100 MB divided by sizeof(wchar_t) = 2. -/
def QALAM_BUFFER_MAX_SIZE : Nat := 100 * 1024 * 1024 / 2

/-- QALAM_BUFFER_GAP_GROW_SIZE. -/
def QALAM_BUFFER_GAP_GROW_SIZE : Nat := 2048

/-- QALAM_BUFFER_INITIAL_CAPACITY. -/
def QALAM_BUFFER_INITIAL_CAPACITY : Nat := 4096

/-- QALAM_BUFFER_INITIAL_GAP_SIZE. -/
def QALAM_BUFFER_INITIAL_GAP_SIZE : Nat := 2048

/-- buffer_ensure_gap_size: grow the array when the gap is too small.  The
malloc of the C code is modelled as always succeeding; the deterministic
out-of-memory branch (minimum requirement above the hard cap) is kept. -/
def buffer_ensure_gap_size (b : QalamBuffer) (needed : Nat) : QalamResult × QalamBuffer :=
  if needed ≤ buffer_gap_size b then (QalamResult.ok, b)
  else
    let content_len := buffer_content_length b
    let min_capacity := content_len + needed + QALAM_BUFFER_GAP_GROW_SIZE
    let new_capacity0 := max (capacity b * 2) min_capacity
    if new_capacity0 > QALAM_BUFFER_MAX_SIZE ∧ min_capacity > QALAM_BUFFER_MAX_SIZE then
      (QalamResult.errOutOfMemory, b)
    else
      let new_capacity :=
        if new_capacity0 > QALAM_BUFFER_MAX_SIZE then QALAM_BUFFER_MAX_SIZE else new_capacity0
      let after_gap_len := capacity b - b.gap_end
      (QalamResult.ok,
        { b with
          data := b.data.take b.gap_start ++
                  List.replicate (new_capacity - after_gap_len - b.gap_start) 0 ++
                  b.data.drop b.gap_end,
          gap_end := new_capacity - after_gap_len })

/-!
## Line and cursor scans

The C helpers walk the logical content one code unit at a time through
buffer_char_at_internal, always guarded by the content length; we express
those walks as scans over the logical content list.
-/

/-- One step of the cursor walk: a newline starts a new line, anything else
advances the column. -/
def walkStep (lc : Nat × Nat) (ch : Nat) : Nat × Nat :=
  if ch = 10 then (lc.1 + 1, 0) else (lc.1, lc.2 + 1)

/-- buffer_update_cursor_from_offset: recompute line/column by walking from
the start of the buffer to gap_start. -/
def buffer_update_cursor_from_offset (b : QalamBuffer) : QalamBuffer :=
  let lc := (b.data.take b.gap_start).foldl walkStep (0, 0)
  { b with cursor_line := lc.1, cursor_column := lc.2 }

/-- buffer_update_line_count: one plus the number of newlines in the
content. -/
def buffer_update_line_count (b : QalamBuffer) : QalamBuffer :=
  { b with line_count := 1 + count10 (logicalContent b) }

/-- buffer_count_newlines_in_range with the end clamped to the content
length, as in the C code. -/
def buffer_count_newlines_in_range (b : QalamBuffer) (start len : Nat) : Nat :=
  count10 (((logicalContent b).take (min (start + len) (buffer_content_length b))).drop start)

/-- Units consumed from the content to reach the start of the given line
(the first loop of buffer_offset_from_line_column, and the whole of
buffer_get_line_start_offset). -/
def scanToLine : List Nat → Nat → Nat
  | _, 0 => 0
  | [], _ + 1 => 0
  | c :: rest, line + 1 =>
    1 + (if c = 10 then scanToLine rest line else scanToLine rest (line + 1))

/-- Units consumed advancing toward the given column, stopping at a newline
or at end of content (the second loop of buffer_offset_from_line_column). -/
def scanColumn : List Nat → Nat → Nat
  | _, 0 => 0
  | [], _ + 1 => 0
  | c :: rest, col + 1 => if c = 10 then 0 else 1 + scanColumn rest col

/-- Length of the line starting at the head of the list, up to a newline or
end of content (the loop of buffer_get_line_length). -/
def scanLineLen : List Nat → Nat
  | [] => 0
  | c :: rest => if c = 10 then 0 else 1 + scanLineLen rest

/-- buffer_get_line_start_offset. -/
def buffer_get_line_start_offset (b : QalamBuffer) (line : Nat) : Nat :=
  scanToLine (logicalContent b) line

/-- buffer_get_line_length. -/
def buffer_get_line_length (b : QalamBuffer) (line : Nat) : Nat :=
  scanLineLen ((logicalContent b).drop (buffer_get_line_start_offset b line))

/-- buffer_offset_from_line_column. -/
def buffer_offset_from_line_column (b : QalamBuffer) (line column : Nat) : Nat :=
  scanToLine (logicalContent b) line +
    scanColumn ((logicalContent b).drop (scanToLine (logicalContent b) line)) column

/-!
## Creation
-/

/-- Inactive zero selection (calloc zero-initialization). -/
def zeroSelection : QalamSelection :=
  { start := ⟨0, 0, 0, 0⟩, endPos := ⟨0, 0, 0, 0⟩, is_active := false, is_rectangular := false }

/-- qalam_buffer_create_with_capacity (the allocation itself is modelled as
succeeding; junk cells are 0). -/
def qalam_buffer_create_with_capacity (initial_capacity : Nat) : QalamBuffer :=
  let c := if initial_capacity < QALAM_BUFFER_INITIAL_CAPACITY
           then QALAM_BUFFER_INITIAL_CAPACITY else initial_capacity
  { data := List.replicate c 0,
    gap_start := 0,
    gap_end := c,
    cursor_line := 0,
    cursor_column := 0,
    line_count := 1,
    selection := zeroSelection,
    filepath := [],
    modified := false,
    readonly := false }

/-- qalam_buffer_create. -/
def qalam_buffer_create : QalamBuffer :=
  qalam_buffer_create_with_capacity QALAM_BUFFER_INITIAL_CAPACITY

/-- qalam_buffer_create_from_text.  A null text pointer and a zero length
both lead to qalam_buffer_create in the C code and are modelled by the empty
byte list. -/
def qalam_buffer_create_from_text (text : List Nat) : QalamResult × Option QalamBuffer :=
  if text.isEmpty then (QalamResult.ok, some qalam_buffer_create)
  else
    match utf8_to_utf16 text with
    | none => (QalamResult.errEncoding, none)
    | some units =>
      if units.isEmpty then (QalamResult.errEncoding, none)
      else
        let b := qalam_buffer_create_with_capacity (units.length + QALAM_BUFFER_INITIAL_GAP_SIZE)
        let b := { b with data := units ++ b.data.drop units.length, gap_start := units.length }
        (QalamResult.ok, some (buffer_update_line_count b))

/-!
## Insert / Delete / Replace
-/

/-- qalam_buffer_insert.  A null text pointer and a zero length both take
the early QALAM_OK return and are modelled by the empty byte list. -/
def qalam_buffer_insert (b : QalamBuffer) (text : List Nat) : QalamResult × QalamBuffer :=
  if text.isEmpty then (QalamResult.ok, b)
  else
    match utf8_to_utf16 text with
    | none => (QalamResult.errEncoding, b)
    | some units =>
      if units.isEmpty then (QalamResult.errEncoding, b)
      else
        match buffer_ensure_gap_size b units.length with
        | (QalamResult.ok, b1) =>
          let b2 :=
            { b1 with
              data := b1.data.take b1.gap_start ++ units ++
                      b1.data.drop (b1.gap_start + units.length),
              gap_start := b1.gap_start + units.length,
              line_count := b1.line_count + count10 units,
              modified := true }
          (QalamResult.ok, buffer_update_cursor_from_offset b2)
        | (r, b1) => (r, b1)

/-- qalam_buffer_insert_at. -/
def qalam_buffer_insert_at (b : QalamBuffer) (offset : Nat) (text : List Nat) :
    QalamResult × QalamBuffer :=
  if offset > buffer_content_length b then (QalamResult.errInvalidPosition, b)
  else qalam_buffer_insert (buffer_move_gap_to b offset) text

/-- The forward-delete loop of qalam_buffer_delete: scans the span after the
gap counting newlines, and when the last unit of the span is a high
surrogate followed in the array by a low surrogate, extends the span by one
unit.  The loop variable i and the mutable to_delete and newlines counters
are threaded explicitly; the fuel argument only bounds the recursion and is
chosen large enough never to run out. -/
def delete_forward_scan (data : List Nat) (gap_end : Nat) :
    Nat → Nat → Nat → Nat → Nat × Nat
  | 0, _, t, nl => (t, nl)
  | fuel + 1, i, t, nl =>
    if i < t then
      delete_forward_scan data gap_end fuel (i + 1)
        (if i = t - 1 ∧ is_high_surrogate (data.getD (gap_end + i) 0) ∧
            gap_end + i + 1 < data.length ∧
            is_low_surrogate (data.getD (gap_end + i + 1) 0)
         then t + 1 else t)
        (if data.getD (gap_end + i) 0 = 10 then nl + 1 else nl)
    else (t, nl)

/-- qalam_buffer_delete: positive count deletes forward, negative deletes
backward, both clamped to the available content, with the surrogate-pair
guard of the source. -/
def qalam_buffer_delete (b : QalamBuffer) (count : Int) : QalamResult × QalamBuffer :=
  if count = 0 then (QalamResult.ok, b)
  else if 0 < count then
    let after_gap := capacity b - b.gap_end
    let t0 := min count.toNat after_gap
    if t0 = 0 then (QalamResult.ok, b)
    else
      let s := delete_forward_scan b.data b.gap_end (after_gap + 1) 0 t0 0
      let lc := b.line_count - s.2
      (QalamResult.ok,
        buffer_update_cursor_from_offset
          { b with
            gap_end := b.gap_end + s.1,
            line_count := if lc < 1 then 1 else lc,
            modified := true })
  else
    let t0 := min (-count).toNat b.gap_start
    if t0 = 0 then (QalamResult.ok, b)
    else
      let t :=
        if is_low_surrogate (b.data.getD (b.gap_start - t0) 0) ∧ 0 < b.gap_start - t0 ∧
           is_high_surrogate (b.data.getD (b.gap_start - t0 - 1) 0)
        then t0 + 1 else t0
      let nl := count10 ((b.data.take b.gap_start).drop (b.gap_start - t))
      let lc := b.line_count - nl
      (QalamResult.ok,
        buffer_update_cursor_from_offset
          { b with
            gap_start := b.gap_start - t,
            line_count := if lc < 1 then 1 else lc,
            modified := true })

/-- qalam_buffer_delete_range: swap a reversed range, reject a start beyond
the content, clamp the end, then delete forward at the start position. -/
def qalam_buffer_delete_range (b : QalamBuffer) (start_offset end_offset : Nat) :
    QalamResult × QalamBuffer :=
  let s := if start_offset > end_offset then end_offset else start_offset
  let e := if start_offset > end_offset then start_offset else end_offset
  if s > buffer_content_length b then (QalamResult.errInvalidRange, b)
  else
    let e := if e > buffer_content_length b then buffer_content_length b else e
    if e - s = 0 then (QalamResult.ok, b)
    else
      let nl := buffer_count_newlines_in_range b s (e - s)
      let b1 := buffer_move_gap_to b s
      let lc := b.line_count - nl
      (QalamResult.ok,
        buffer_update_cursor_from_offset
          { b1 with
            gap_end := b1.gap_end + (e - s),
            line_count := if lc < 1 then 1 else lc,
            modified := true })

/-- qalam_buffer_replace: delete the range, then insert at its start. -/
def qalam_buffer_replace (b : QalamBuffer) (start_offset end_offset : Nat) (text : List Nat) :
    QalamResult × QalamBuffer :=
  match qalam_buffer_delete_range b start_offset end_offset with
  | (QalamResult.ok, b1) => qalam_buffer_insert (buffer_move_gap_to b1 start_offset) text
  | (r, b1) => (r, b1)

/-!
## Cursor operations
-/

/-- qalam_buffer_set_cursor. -/
def qalam_buffer_set_cursor (b : QalamBuffer) (line column : Nat) :
    QalamResult × QalamBuffer :=
  let line := if line ≥ b.line_count then b.line_count - 1 else line
  let line_len := buffer_get_line_length b line
  let column := if column > line_len then line_len else column
  let offset := buffer_offset_from_line_column b line column
  let b1 := buffer_move_gap_to b offset
  (QalamResult.ok, { b1 with cursor_line := line, cursor_column := column })

/-- qalam_buffer_set_cursor_offset. -/
def qalam_buffer_set_cursor_offset (b : QalamBuffer) (offset : Nat) :
    QalamResult × QalamBuffer :=
  let content_len := buffer_content_length b
  let offset := if offset > content_len then content_len else offset
  let offset :=
    if 0 < offset ∧ offset < content_len ∧
       is_low_surrogate (buffer_char_at_internal b offset)
    then offset - 1 else offset
  (QalamResult.ok, buffer_update_cursor_from_offset (buffer_move_gap_to b offset))

/-- qalam_buffer_move_cursor. -/
def qalam_buffer_move_cursor (b : QalamBuffer) (delta_line delta_column : Int) :
    QalamResult × QalamBuffer :=
  let new_line :=
    if delta_line < 0 then
      if (-delta_line).toNat > b.cursor_line then 0 else b.cursor_line - (-delta_line).toNat
    else
      if b.cursor_line + delta_line.toNat ≥ b.line_count then b.line_count - 1
      else b.cursor_line + delta_line.toNat
  let new_column :=
    if delta_column < 0 then
      if (-delta_column).toNat > b.cursor_column then 0
      else b.cursor_column - (-delta_column).toNat
    else b.cursor_column + delta_column.toNat
  qalam_buffer_set_cursor b new_line new_column

/-- qalam_buffer_cursor_to_start. -/
def qalam_buffer_cursor_to_start (b : QalamBuffer) : QalamResult × QalamBuffer :=
  let b1 := buffer_move_gap_to b 0
  (QalamResult.ok, { b1 with cursor_line := 0, cursor_column := 0 })

/-- qalam_buffer_cursor_to_end. -/
def qalam_buffer_cursor_to_end (b : QalamBuffer) : QalamResult × QalamBuffer :=
  (QalamResult.ok,
    buffer_update_cursor_from_offset (buffer_move_gap_to b (buffer_content_length b)))

/-- qalam_buffer_cursor_to_line_start. -/
def qalam_buffer_cursor_to_line_start (b : QalamBuffer) : QalamResult × QalamBuffer :=
  let b1 := buffer_move_gap_to b (buffer_get_line_start_offset b b.cursor_line)
  (QalamResult.ok, { b1 with cursor_column := 0 })

/-- qalam_buffer_cursor_to_line_end. -/
def qalam_buffer_cursor_to_line_end (b : QalamBuffer) : QalamResult × QalamBuffer :=
  let line_start := buffer_get_line_start_offset b b.cursor_line
  let line_len := buffer_get_line_length b b.cursor_line
  let b1 := buffer_move_gap_to b (line_start + line_len)
  (QalamResult.ok, { b1 with cursor_column := line_len })

/-!
## Content retrieval
-/

/-- qalam_buffer_get_content.  The byte output buffer of the C call is
modelled by its size; the function returns the bytes it would write and the
reported bytes_written.  A conversion that fails or does not fit in
out_size - 1 bytes makes WideCharToMultiByte return 0, which the C code
reports as an encoding error. -/
def qalam_buffer_get_content (b : QalamBuffer) (out_size : Nat) :
    QalamResult × List Nat × Nat :=
  if out_size = 0 then (QalamResult.errNullPointer, [], 0)
  else if buffer_content_length b = 0 then (QalamResult.ok, [], 0)
  else
    match utf16_to_utf8 (logicalContent b) with
    | some bs =>
      if bs.length ≤ out_size - 1 then (QalamResult.ok, bs, bs.length)
      else (QalamResult.errEncoding, [], 0)
    | none => (QalamResult.errEncoding, [], 0)

/-- qalam_buffer_get_range. -/
def qalam_buffer_get_range (b : QalamBuffer) (start_offset end_offset : Nat)
    (out_size : Nat) : QalamResult × List Nat × Nat :=
  if out_size = 0 then (QalamResult.errNullPointer, [], 0)
  else if start_offset > buffer_content_length b ∨ end_offset > buffer_content_length b then
    (QalamResult.errInvalidRange, [], 0)
  else
    let s := if start_offset > end_offset then end_offset else start_offset
    let e := if start_offset > end_offset then start_offset else end_offset
    if e - s = 0 then (QalamResult.ok, [], 0)
    else
      match utf16_to_utf8 (((logicalContent b).take e).drop s) with
      | some bs =>
        if bs.length ≤ out_size - 1 then (QalamResult.ok, bs, bs.length)
        else (QalamResult.errEncoding, [], 0)
      | none => (QalamResult.errEncoding, [], 0)

/-!
## Selection operations
-/

/-- qalam_buffer_set_selection: clamp both endpoints against line and column
bounds exactly as the cursor setter does, then store them with the active
flag set. -/
def qalam_buffer_set_selection (b : QalamBuffer)
    (start_line start_column end_line end_column : Nat) : QalamResult × QalamBuffer :=
  let start_line := if start_line ≥ b.line_count then b.line_count - 1 else start_line
  let end_line := if end_line ≥ b.line_count then b.line_count - 1 else end_line
  let start_line_len := buffer_get_line_length b start_line
  let end_line_len := buffer_get_line_length b end_line
  let start_column := if start_column > start_line_len then start_line_len else start_column
  let end_column := if end_column > end_line_len then end_line_len else end_column
  let start_offset := buffer_offset_from_line_column b start_line start_column
  let end_offset := buffer_offset_from_line_column b end_line end_column
  (QalamResult.ok,
    { b with
      selection :=
        { start := ⟨start_line, start_column, start_offset, start_column⟩,
          endPos := ⟨end_line, end_column, end_offset, end_column⟩,
          is_active := true,
          is_rectangular := false } })

/-- qalam_buffer_clear_selection. -/
def qalam_buffer_clear_selection (b : QalamBuffer) : QalamBuffer :=
  { b with
    selection :=
      { start := ⟨0, 0, 0, 0⟩, endPos := ⟨0, 0, 0, 0⟩,
        is_active := false, is_rectangular := b.selection.is_rectangular } }

/-- qalam_buffer_get_selected_text: an inactive selection yields an empty
result with QALAM_OK; an active one is normalized and handed to
qalam_buffer_get_range. -/
def qalam_buffer_get_selected_text (b : QalamBuffer) (out_size : Nat) :
    QalamResult × List Nat × Nat :=
  if out_size = 0 then (QalamResult.errNullPointer, [], 0)
  else if b.selection.is_active = false then (QalamResult.ok, [], 0)
  else
    let s := b.selection.start.offset
    let e := b.selection.endPos.offset
    let s1 := if s > e then e else s
    let e1 := if s > e then s else e
    qalam_buffer_get_range b s1 e1 out_size

/-!
## File operations

The Win32 file handles are outside the repository; the success of opening
and writing the file is abstracted into two boolean parameters.
-/

/-- qalam_buffer_save: encode the content, write it out, and on success
record the path and clear the modified flag.  A conversion failure leaves
utf8_content null in the C code, so nothing is written and the call still
succeeds. -/
def qalam_buffer_save (b : QalamBuffer) (filepath : List Nat)
    (file_open_ok write_ok : Bool) : QalamResult × QalamBuffer :=
  let utf8_content : Option (List Nat) :=
    if buffer_content_length b = 0 then none else utf16_to_utf8 (logicalContent b)
  if file_open_ok = false then (QalamResult.errFileAccess, b)
  else
    match utf8_content with
    | some _ =>
      if write_ok = false then (QalamResult.errFileWrite, b)
      else (QalamResult.ok, { b with filepath := filepath, modified := false })
    | none => (QalamResult.ok, { b with filepath := filepath, modified := false })


/-!
## Operation sequences

A reified list of the public mutating and cursor operations, used to state
the "after every sequence of public operations" invariants.  Each operation
contributes the buffer it leaves behind (the second component of its
result), whether it succeeded or failed, exactly as a C caller would go on
using the same buffer pointer.
-/

/-- One public buffer operation. -/
inductive BufferOp where
  | insert (text : List Nat)
  | insertAt (offset : Nat) (text : List Nat)
  | delete (count : Int)
  | deleteRange (start_offset end_offset : Nat)
  | replace (start_offset end_offset : Nat) (text : List Nat)
  | setCursor (line column : Nat)
  | setCursorOffset (offset : Nat)
  | moveCursor (delta_line delta_column : Int)
  | cursorToStart
  | cursorToEnd
  | cursorToLineStart
  | cursorToLineEnd
  | setSelection (start_line start_column end_line end_column : Nat)
  | clearSelection
  deriving DecidableEq, Repr

/-- Execute one operation, keeping the buffer it leaves behind. -/
def execOp (b : QalamBuffer) : BufferOp → QalamBuffer
  | BufferOp.insert text => (qalam_buffer_insert b text).2
  | BufferOp.insertAt offset text => (qalam_buffer_insert_at b offset text).2
  | BufferOp.delete count => (qalam_buffer_delete b count).2
  | BufferOp.deleteRange s e => (qalam_buffer_delete_range b s e).2
  | BufferOp.replace s e text => (qalam_buffer_replace b s e text).2
  | BufferOp.setCursor line column => (qalam_buffer_set_cursor b line column).2
  | BufferOp.setCursorOffset offset => (qalam_buffer_set_cursor_offset b offset).2
  | BufferOp.moveCursor dl dc => (qalam_buffer_move_cursor b dl dc).2
  | BufferOp.cursorToStart => (qalam_buffer_cursor_to_start b).2
  | BufferOp.cursorToEnd => (qalam_buffer_cursor_to_end b).2
  | BufferOp.cursorToLineStart => (qalam_buffer_cursor_to_line_start b).2
  | BufferOp.cursorToLineEnd => (qalam_buffer_cursor_to_line_end b).2
  | BufferOp.setSelection sl sc el ec => (qalam_buffer_set_selection b sl sc el ec).2
  | BufferOp.clearSelection => qalam_buffer_clear_selection b

/-- Execute a sequence of operations from left to right. -/
def execOps (b : QalamBuffer) (ops : List BufferOp) : QalamBuffer :=
  ops.foldl execOp b

/-- A Unicode scalar value: in range and not a surrogate code point. -/
def ValidScalar (c : Nat) : Prop := c ≤ 0x10FFFF ∧ ¬(0xD800 ≤ c ∧ c ≤ 0xDFFF)

/-- The cursor the spec describes: the line/column reached by walking the
logical content from offset 0 to gap_start, counting newlines (spec I4).
Stated over the logical content so that it is meaningful independently of
the physical gap position. -/
def specCursorWalk (b : QalamBuffer) : Nat × Nat :=
  ((logicalContent b).take b.gap_start).foldl walkStep (0, 0)

/-- The forward surrogate-extension condition of qalam_buffer_delete: the
last unit of the clamped span is a high surrogate and the unit after the
span (still inside the array) is a low surrogate. -/
def fwdExtCond (data : List Nat) (gap_end t : Nat) : Prop :=
  is_high_surrogate (data.getD (gap_end + t - 1) 0) = true ∧
  gap_end + t < data.length ∧
  is_low_surrogate (data.getD (gap_end + t) 0) = true

instance (data : List Nat) (gap_end t : Nat) : Decidable (fwdExtCond data gap_end t) := by
  unfold fwdExtCond; infer_instance

/-- The backward surrogate-extension condition of qalam_buffer_delete: the
first unit of the clamped span is a low surrogate preceded by a high
surrogate. -/
def bwdExtCond (data : List Nat) (gap_start t : Nat) : Prop :=
  is_low_surrogate (data.getD (gap_start - t) 0) = true ∧
  0 < gap_start - t ∧
  is_high_surrogate (data.getD (gap_start - t - 1) 0) = true

instance (data : List Nat) (gap_start t : Nat) : Decidable (bwdExtCond data gap_start t) := by
  unfold bwdExtCond; infer_instance

/-- The clamped forward span before the surrogate guard (to_delete before
the loop of qalam_buffer_delete, forward case). -/
def deleteFwdT0 (b : QalamBuffer) (count : Int) : Nat :=
  min count.toNat (capacity b - b.gap_end)

/-- The forward span qalam_buffer_delete finally removes. -/
def deleteFwdSpan (b : QalamBuffer) (count : Int) : Nat :=
  if fwdExtCond b.data b.gap_end (deleteFwdT0 b count) then deleteFwdT0 b count + 1
  else deleteFwdT0 b count

/-- The clamped backward span before the surrogate guard (to_delete before
the guard of qalam_buffer_delete, backward case). -/
def deleteBwdT0 (b : QalamBuffer) (count : Int) : Nat :=
  min (-count).toNat b.gap_start

/-- The backward span qalam_buffer_delete finally removes. -/
def deleteBwdSpan (b : QalamBuffer) (count : Int) : Nat :=
  if bwdExtCond b.data b.gap_start (deleteBwdT0 b count) then deleteBwdT0 b count + 1
  else deleteBwdT0 b count

/-- The normalized start offset of qalam_buffer_delete_range (after the
swap of a reversed range). -/
def drStart (start_offset end_offset : Nat) : Nat :=
  if start_offset > end_offset then end_offset else start_offset

/-- The normalized end offset of qalam_buffer_delete_range before clamping. -/
def drEndRaw (start_offset end_offset : Nat) : Nat :=
  if start_offset > end_offset then start_offset else end_offset

/-- The normalized end offset of qalam_buffer_delete_range after clamping to
the content length. -/
def drEnd (b : QalamBuffer) (start_offset end_offset : Nat) : Nat :=
  if drEndRaw start_offset end_offset > buffer_content_length b then buffer_content_length b
  else drEndRaw start_offset end_offset

/-- The line-count bookkeeping invariant (spec I3). -/
def LineCountInv (b : QalamBuffer) : Prop :=
  b.line_count = 1 + count10 (logicalContent b)

/-- The argument discipline under which qalam_buffer_replace is safe: the
range is already in order.  A swapped range is normalized by the delete half
but the insert half then moves the gap to the raw start offset, past the end
of the shrunken content. -/
def replaceArgsOK : BufferOp → Bool
  | BufferOp.replace s e _ => decide (s ≤ e)
  | _ => true

/-- Overwrite the readonly flag, leaving every other field alone.  Used to
state that no mutating operation ever consults the flag. -/
def setReadonly (b : QalamBuffer) (r : Bool) : QalamBuffer := { b with readonly := r }

end Qalam

namespace Qalam

/-!
## Codec lemmas: the UTF-8 / UTF-16 round trip (toward claim C1)
-/

theorem utf8Encode_cons (c : Nat) (cs : List Nat) :
    utf8Encode (c :: cs) = utf8EncodeChar c ++ utf8Encode cs := by
  simp [utf8Encode]

theorem utf16Encode_cons (c : Nat) (cs : List Nat) :
    utf16Encode (c :: cs) = utf16EncodeChar c ++ utf16Encode cs := by
  simp [utf16Encode]

set_option maxRecDepth 10000 in
theorem utf8F_valid_encode :
    ∀ fuel (bs cs : List Nat), utf8DecodeF fuel bs = some cs →
      (∀ c ∈ cs, ValidScalar c) ∧ utf8Encode cs = bs := by
  intro fuel
  induction fuel with
  | zero =>
    intro bs cs h
    cases bs with
    | nil =>
      simp only [utf8DecodeF, Option.some.injEq] at h
      subst h
      exact ⟨fun c hc => by simp at hc, by simp [utf8Encode]⟩
    | cons b bs =>
      simp only [utf8DecodeF] at h
      exact Option.noConfusion h
  | succ fuel ih =>
    intro bs cs h
    cases bs with
    | nil =>
      simp only [utf8DecodeF, Option.some.injEq] at h
      subst h
      exact ⟨fun c hc => by simp at hc, by simp [utf8Encode]⟩
    | cons b bs =>
      simp only [utf8DecodeF] at h
      split at h
      case isTrue hb0 =>
        simp only [Option.map_eq_some'] at h
        obtain ⟨cs1, hdec, rfl⟩ := h
        obtain ⟨hv, he⟩ := ih bs cs1 hdec
        refine ⟨?_, ?_⟩
        · intro c hc
          rcases List.mem_cons.mp hc with rfl | hc1
          · exact ⟨by omega, by omega⟩
          · exact hv c hc1
        · rw [utf8Encode_cons, he]
          simp [utf8EncodeChar, hb0]
      case isFalse hb0 =>
      split at h
      case isTrue hb1 => simp at h
      case isFalse hb1 =>
      split at h
      case isTrue hb2 =>
        cases bs with
        | nil => simp at h
        | cons b1 bs1 =>
          simp only [List.length_cons, List.getD_cons_zero, List.getD_cons_succ,
            List.drop_succ_cons, List.drop_zero] at h
          split at h
          case isFalse => simp at h
          case isTrue hcond =>
            obtain ⟨-, hc1, hc2⟩ := hcond
            simp only [Option.map_eq_some'] at h
            obtain ⟨cs1, hdec, rfl⟩ := h
            obtain ⟨hv, he⟩ := ih bs1 cs1 hdec
            refine ⟨?_, ?_⟩
            · intro c hc
              rcases List.mem_cons.mp hc with rfl | hcm
              · exact ⟨by omega, by omega⟩
              · exact hv c hcm
            · rw [utf8Encode_cons, he]
              have g1 : ¬ ((b - 0xC0) * 64 + (b1 - 0x80) < 0x80) := by omega
              have g2 : (b - 0xC0) * 64 + (b1 - 0x80) < 0x800 := by omega
              have e1 : 0xC0 + ((b - 0xC0) * 64 + (b1 - 0x80)) / 64 = b := by omega
              have e2 : 0x80 + ((b - 0xC0) * 64 + (b1 - 0x80)) % 64 = b1 := by omega
              simp [utf8EncodeChar, g1, g2, e1, e2]
      case isFalse hb2 =>
      split at h
      case isTrue hb3 =>
        cases bs with
        | nil => simp at h
        | cons b1 bs1 =>
          cases bs1 with
          | nil => simp at h
          | cons b2 bs2 =>
            simp only [List.length_cons, List.getD_cons_zero, List.getD_cons_succ,
              List.drop_succ_cons, List.drop_zero] at h
            split at h
            case isFalse => simp at h
            case isTrue hcond =>
            obtain ⟨-, hc1, hc2, hc3, hc4⟩ := hcond
            split at h
            case isTrue => simp at h
            case isFalse hrange =>
            simp only [Option.map_eq_some'] at h
            obtain ⟨cs1, hdec, rfl⟩ := h
            obtain ⟨hv, he⟩ := ih bs2 cs1 hdec
            refine ⟨?_, ?_⟩
            · intro c hc
              rcases List.mem_cons.mp hc with rfl | hcm
              · exact ⟨by omega, by omega⟩
              · exact hv c hcm
            · rw [utf8Encode_cons, he]
              have g1 : ¬ ((b - 0xE0) * 4096 + (b1 - 0x80) * 64 + (b2 - 0x80) < 0x80) := by
                omega
              have g2 : ¬ ((b - 0xE0) * 4096 + (b1 - 0x80) * 64 + (b2 - 0x80) < 0x800) := by
                omega
              have g3 : (b - 0xE0) * 4096 + (b1 - 0x80) * 64 + (b2 - 0x80) < 0x10000 := by
                omega
              have e1 : 0xE0 + ((b - 0xE0) * 4096 + (b1 - 0x80) * 64 + (b2 - 0x80)) / 4096 = b := by
                omega
              have e2 : 0x80 + ((b - 0xE0) * 4096 + (b1 - 0x80) * 64 + (b2 - 0x80)) / 64 % 64 = b1 := by
                omega
              have e3 : 0x80 + ((b - 0xE0) * 4096 + (b1 - 0x80) * 64 + (b2 - 0x80)) % 64 = b2 := by
                omega
              simp [utf8EncodeChar, g1, g2, g3, e1, e2, e3]
      case isFalse hb3 =>
      split at h
      case isFalse hb4 => simp at h
      case isTrue hb4 =>
        cases bs with
        | nil => simp at h
        | cons b1 bs1 =>
          cases bs1 with
          | nil => simp at h
          | cons b2 bs2 =>
            cases bs2 with
            | nil => simp at h
            | cons b3 bs3 =>
              simp only [List.length_cons, List.getD_cons_zero, List.getD_cons_succ,
                List.drop_succ_cons, List.drop_zero] at h
              split at h
              case isFalse => simp at h
              case isTrue hcond =>
              obtain ⟨-, hc1, hc2, hc3, hc4, hc5, hc6⟩ := hcond
              split at h
              case isTrue => simp at h
              case isFalse hrange =>
              simp only [Option.map_eq_some'] at h
              obtain ⟨cs1, hdec, rfl⟩ := h
              obtain ⟨hv, he⟩ := ih bs3 cs1 hdec
              refine ⟨?_, ?_⟩
              · intro c hc
                rcases List.mem_cons.mp hc with rfl | hcm
                · exact ⟨by omega, by omega⟩
                · exact hv c hcm
              · rw [utf8Encode_cons, he]
                have g1 : ¬ ((b - 0xF0) * 262144 + (b1 - 0x80) * 4096 + (b2 - 0x80) * 64 + (b3 - 0x80) < 0x80) := by
                  omega
                have g2 : ¬ ((b - 0xF0) * 262144 + (b1 - 0x80) * 4096 + (b2 - 0x80) * 64 + (b3 - 0x80) < 0x800) := by
                  omega
                have g3 : ¬ ((b - 0xF0) * 262144 + (b1 - 0x80) * 4096 + (b2 - 0x80) * 64 + (b3 - 0x80) < 0x10000) := by
                  omega
                have e1 : 0xF0 + ((b - 0xF0) * 262144 + (b1 - 0x80) * 4096 + (b2 - 0x80) * 64 + (b3 - 0x80)) / 262144 = b := by
                  omega
                have e2 : 0x80 + ((b - 0xF0) * 262144 + (b1 - 0x80) * 4096 + (b2 - 0x80) * 64 + (b3 - 0x80)) / 4096 % 64 = b1 := by
                  omega
                have e3 : 0x80 + ((b - 0xF0) * 262144 + (b1 - 0x80) * 4096 + (b2 - 0x80) * 64 + (b3 - 0x80)) / 64 % 64 = b2 := by
                  omega
                have e4 : 0x80 + ((b - 0xF0) * 262144 + (b1 - 0x80) * 4096 + (b2 - 0x80) * 64 + (b3 - 0x80)) % 64 = b3 := by
                  omega
                simp [utf8EncodeChar, g1, g2, g3, e1, e2, e3, e4]

theorem utf8Decode_valid (bs cs : List Nat) (h : utf8Decode bs = some cs) :
    ∀ c ∈ cs, ValidScalar c := (utf8F_valid_encode bs.length bs cs h).1

theorem utf8Encode_decode (bs cs : List Nat) (h : utf8Decode bs = some cs) :
    utf8Encode cs = bs := (utf8F_valid_encode bs.length bs cs h).2

theorem utf8Decode_cons_ne_nil (b : Nat) (bs cs : List Nat)
    (h : utf8Decode (b :: bs) = some cs) : cs ≠ [] := by
  intro hnil
  have he := utf8Encode_decode _ _ h
  rw [hnil] at he
  simp [utf8Encode] at he

theorem utf16EncodeChar_ne_nil (c : Nat) : utf16EncodeChar c ≠ [] := by
  by_cases hc : c < 0x10000 <;> simp [utf16EncodeChar, hc]

theorem utf16Encode_cons_ne_nil (c : Nat) (cs : List Nat) : utf16Encode (c :: cs) ≠ [] := by
  rw [utf16Encode_cons]
  intro hx
  rcases List.append_eq_nil.mp hx with ⟨h1, _⟩
  exact utf16EncodeChar_ne_nil c h1

end Qalam

namespace Qalam

/-!
## Structural lemmas about the gap mechanics
-/

theorem length_logicalContent (b : QalamBuffer) (h : BufferWF b) :
    (logicalContent b).length = buffer_content_length b := by
  obtain ⟨h1, h2⟩ := h
  simp only [logicalContent, buffer_content_length, capacity, buffer_gap_size,
    List.length_append, List.length_take, List.length_drop]
  omega

theorem count10_append (l1 l2 : List Nat) :
    count10 (l1 ++ l2) = count10 l1 + count10 l2 := by
  simp [count10, List.count_append]

theorem count10_take_add_drop (l : List Nat) (n : Nat) :
    count10 (l.take n) + count10 (l.drop n) = count10 l := by
  rw [← count10_append, List.take_append_drop]

theorem take_append_cross (l1 l2 : List Nat) (n i : Nat) (h : l1.length = n) :
    List.take (n + i) (l1 ++ l2) = l1 ++ List.take i l2 := by
  subst h; exact List.take_append i

theorem drop_append_cross (l1 l2 : List Nat) (n i : Nat) (h : l1.length = n) :
    List.drop (n + i) (l1 ++ l2) = List.drop i l2 := by
  subst h; exact List.drop_append i

theorem move_gap_to_spec (b : QalamBuffer) (pos : Nat) (hwf : BufferWF b)
    (hpos : pos ≤ buffer_content_length b) :
    (buffer_move_gap_to b pos).gap_start = pos ∧
    (buffer_move_gap_to b pos).gap_end = pos + buffer_gap_size b ∧
    (buffer_move_gap_to b pos).data.length = b.data.length ∧
    logicalContent (buffer_move_gap_to b pos) = logicalContent b := by
  obtain ⟨hw1, hw2⟩ := hwf
  have hpos' : pos + b.gap_end ≤ b.data.length + b.gap_start := by
    simp only [buffer_content_length, capacity, buffer_gap_size] at hpos
    omega
  unfold buffer_move_gap_to
  split
  case isTrue heq =>
    subst heq
    refine ⟨rfl, ?_, rfl, rfl⟩
    simp only [buffer_gap_size]; omega
  case isFalse hne =>
  split
  case isTrue hlt =>
    refine ⟨rfl, rfl, ?_, ?_⟩
    · simp only [List.length_append, List.length_take, List.length_drop]
      omega
    · show List.take pos _ ++ List.drop (pos + (b.gap_end - b.gap_start)) _ =
        List.take b.gap_start b.data ++ List.drop b.gap_end b.data
      have hlenA : (List.take (b.gap_end - (b.gap_start - pos)) b.data).length =
          pos + (b.gap_end - b.gap_start) := by
        rw [List.length_take]; omega
      rw [List.append_assoc,
        List.take_append_of_le_length (by omega :
          pos ≤ (List.take (b.gap_end - (b.gap_start - pos)) b.data).length),
        List.take_take, min_eq_left (by omega : pos ≤ b.gap_end - (b.gap_start - pos)),
        List.drop_left' hlenA]
      conv_rhs => rw [show b.gap_start = pos + (b.gap_start - pos) from by omega,
        List.take_add]
      rw [List.append_assoc]
  case isFalse hge =>
    have hlt : b.gap_start < pos := by omega
    refine ⟨rfl, rfl, ?_, ?_⟩
    · simp only [List.length_append, List.length_take, List.length_drop]
      omega
    · show List.take pos _ ++ List.drop (pos + (b.gap_end - b.gap_start)) _ =
        List.take b.gap_start b.data ++ List.drop b.gap_end b.data
      have hlenAB : (List.take b.gap_start b.data ++
          (List.drop b.gap_end b.data).take (pos - b.gap_start)).length = pos := by
        rw [List.length_append, List.length_take, List.length_take, List.length_drop]
        omega
      rw [List.take_left' hlenAB, drop_append_cross _ _ pos (b.gap_end - b.gap_start) hlenAB,
        List.drop_drop, List.append_assoc,
        show b.gap_start + (pos - b.gap_start) + (b.gap_end - b.gap_start) =
          b.gap_end + (pos - b.gap_start) from by omega]
      conv_rhs => rw [show List.drop b.gap_end b.data =
        (List.drop b.gap_end b.data).take (pos - b.gap_start) ++
          (List.drop b.gap_end b.data).drop (pos - b.gap_start) from
        (List.take_append_drop _ _).symm]
      rw [List.drop_drop]

theorem move_gap_to_fields (b : QalamBuffer) (pos : Nat) :
    (buffer_move_gap_to b pos).cursor_line = b.cursor_line ∧
    (buffer_move_gap_to b pos).cursor_column = b.cursor_column ∧
    (buffer_move_gap_to b pos).line_count = b.line_count ∧
    (buffer_move_gap_to b pos).selection = b.selection ∧
    (buffer_move_gap_to b pos).modified = b.modified ∧
    (buffer_move_gap_to b pos).readonly = b.readonly ∧
    (buffer_move_gap_to b pos).filepath = b.filepath := by
  unfold buffer_move_gap_to
  split
  · exact ⟨rfl, rfl, rfl, rfl, rfl, rfl, rfl⟩
  split <;> exact ⟨rfl, rfl, rfl, rfl, rfl, rfl, rfl⟩

theorem move_gap_to_wf (b : QalamBuffer) (pos : Nat) (hwf : BufferWF b)
    (hpos : pos ≤ buffer_content_length b) :
    BufferWF (buffer_move_gap_to b pos) := by
  obtain ⟨h1, h2, h3, -⟩ := move_gap_to_spec b pos hwf hpos
  obtain ⟨hw1, hw2⟩ := hwf
  simp only [buffer_content_length, capacity, buffer_gap_size] at hpos
  constructor
  · rw [h1, h2]; omega
  · rw [h2, h3]; simp only [buffer_gap_size]; omega

theorem move_gap_to_content_length (b : QalamBuffer) (pos : Nat) (hwf : BufferWF b)
    (hpos : pos ≤ buffer_content_length b) :
    buffer_content_length (buffer_move_gap_to b pos) = buffer_content_length b := by
  obtain ⟨h1, h2, h3, -⟩ := move_gap_to_spec b pos hwf hpos
  obtain ⟨hw1, hw2⟩ := hwf
  simp only [buffer_content_length, capacity, buffer_gap_size] at hpos
  simp only [buffer_content_length, capacity, buffer_gap_size, h1, h2, h3]
  omega

end Qalam

namespace Qalam

/-!
## Lemmas about buffer_ensure_gap_size
-/

theorem ensure_gap_noop (b : QalamBuffer) (needed : Nat) (h : needed ≤ buffer_gap_size b) :
    buffer_ensure_gap_size b needed = (QalamResult.ok, b) := by
  unfold buffer_ensure_gap_size
  rw [if_pos h]

theorem ensure_gap_oom (b : QalamBuffer) (needed : Nat)
    (h : ¬ needed ≤ buffer_gap_size b)
    (hbig : buffer_content_length b + needed + QALAM_BUFFER_GAP_GROW_SIZE >
      QALAM_BUFFER_MAX_SIZE) :
    buffer_ensure_gap_size b needed = (QalamResult.errOutOfMemory, b) := by
  unfold buffer_ensure_gap_size
  rw [if_neg h, if_pos ⟨by omega, hbig⟩]

theorem ensure_gap_grow (b : QalamBuffer) (needed : Nat) (hwf : BufferWF b)
    (h : ¬ needed ≤ buffer_gap_size b)
    (hfit : buffer_content_length b + needed + QALAM_BUFFER_GAP_GROW_SIZE ≤
      QALAM_BUFFER_MAX_SIZE) :
    (buffer_ensure_gap_size b needed).1 = QalamResult.ok ∧
    (buffer_ensure_gap_size b needed).2.gap_start = b.gap_start ∧
    (buffer_ensure_gap_size b needed).2.data.length =
      min (max (capacity b * 2) (buffer_content_length b + needed + QALAM_BUFFER_GAP_GROW_SIZE))
        QALAM_BUFFER_MAX_SIZE ∧
    (buffer_ensure_gap_size b needed).2.gap_end =
      (buffer_ensure_gap_size b needed).2.data.length - (capacity b - b.gap_end) ∧
    logicalContent (buffer_ensure_gap_size b needed).2 = logicalContent b ∧
    BufferWF (buffer_ensure_gap_size b needed).2 ∧
    needed ≤ buffer_gap_size (buffer_ensure_gap_size b needed).2 ∧
    (buffer_ensure_gap_size b needed).2.cursor_line = b.cursor_line ∧
    (buffer_ensure_gap_size b needed).2.cursor_column = b.cursor_column ∧
    (buffer_ensure_gap_size b needed).2.line_count = b.line_count ∧
    (buffer_ensure_gap_size b needed).2.selection = b.selection ∧
    (buffer_ensure_gap_size b needed).2.modified = b.modified ∧
    (buffer_ensure_gap_size b needed).2.readonly = b.readonly ∧
    (buffer_ensure_gap_size b needed).2.filepath = b.filepath := by
  obtain ⟨hw1, hw2⟩ := hwf
  have hcl : buffer_content_length b = b.data.length - (b.gap_end - b.gap_start) := rfl
  have hclen : buffer_content_length b + (b.gap_end - b.gap_start) = b.data.length := by
    simp only [buffer_content_length, capacity, buffer_gap_size]
    omega
  unfold buffer_ensure_gap_size
  rw [if_neg h, if_neg (by intro hc; exact absurd hc.2 (by omega))]
  simp only []
  set newCap :=
    if max (capacity b * 2)
        (buffer_content_length b + needed + QALAM_BUFFER_GAP_GROW_SIZE) >
        QALAM_BUFFER_MAX_SIZE
    then QALAM_BUFFER_MAX_SIZE
    else max (capacity b * 2) (buffer_content_length b + needed + QALAM_BUFFER_GAP_GROW_SIZE)
    with hnc
  have hminle : buffer_content_length b + needed + QALAM_BUFFER_GAP_GROW_SIZE ≤ newCap := by
    rw [hnc]; split
    · exact hfit
    · exact le_max_right _ _
  have hncval : newCap =
      min (max (capacity b * 2) (buffer_content_length b + needed + QALAM_BUFFER_GAP_GROW_SIZE))
        QALAM_BUFFER_MAX_SIZE := by
    rw [hnc]; split
    · omega
    · omega
  have hafter : capacity b - b.gap_end ≤ newCap := by
    simp only [capacity] at *
    omega
  have hgsle : b.gap_start + (capacity b - b.gap_end) ≤ newCap := by
    simp only [buffer_content_length, capacity, buffer_gap_size] at *
    omega
  have hlenA : (List.take b.gap_start b.data).length = b.gap_start := by
    rw [List.length_take]; simp only [capacity] at *; omega
  have hlenPad : (List.replicate (newCap - (capacity b - b.gap_end) - b.gap_start) (0 : Nat)).length =
      newCap - (capacity b - b.gap_end) - b.gap_start := List.length_replicate _ _
  have hlenC : (List.drop b.gap_end b.data).length = capacity b - b.gap_end := by
    rw [List.length_drop]; rfl
  have hlenAP : (List.take b.gap_start b.data ++
      List.replicate (newCap - (capacity b - b.gap_end) - b.gap_start) (0 : Nat)).length =
      newCap - (capacity b - b.gap_end) := by
    rw [List.length_append, hlenA, hlenPad]
    simp only [buffer_content_length, capacity, buffer_gap_size] at *
    omega
  have hlenD : (List.take b.gap_start b.data ++
      List.replicate (newCap - (capacity b - b.gap_end) - b.gap_start) (0 : Nat) ++
      List.drop b.gap_end b.data).length = newCap := by
    rw [List.length_append, List.length_append, hlenA, hlenPad, hlenC]
    simp only [buffer_content_length, capacity, buffer_gap_size] at *
    omega
  refine ⟨trivial, trivial, ?_, ?_, ?_, ?_, ?_, trivial, trivial, trivial, trivial, trivial, trivial, trivial⟩
  · show (List.take b.gap_start b.data ++
        List.replicate (newCap - (capacity b - b.gap_end) - b.gap_start) 0 ++
        List.drop b.gap_end b.data).length = _
    rw [← hncval]; exact hlenD
  · show newCap - (capacity b - b.gap_end) =
      (List.take b.gap_start b.data ++
        List.replicate (newCap - (capacity b - b.gap_end) - b.gap_start) 0 ++
        List.drop b.gap_end b.data).length - (capacity b - b.gap_end)
    rw [hlenD]
  · show List.take b.gap_start _ ++ List.drop (newCap - (capacity b - b.gap_end)) _ =
      logicalContent b
    rw [List.append_assoc]
    rw [List.take_append_of_le_length (by rw [hlenA] : b.gap_start ≤ (List.take b.gap_start b.data).length)]
    rw [List.take_take, min_self]
    rw [← List.append_assoc, List.drop_left' hlenAP]
    rfl
  · constructor
    · show b.gap_start ≤ newCap - (capacity b - b.gap_end)
      simp only [buffer_content_length, capacity, buffer_gap_size] at *
      omega
    · show newCap - (capacity b - b.gap_end) ≤
        (List.take b.gap_start b.data ++
          List.replicate (newCap - (capacity b - b.gap_end) - b.gap_start) 0 ++
          List.drop b.gap_end b.data).length
      rw [hlenD]
      simp only [capacity] at *
      omega
  · show needed ≤ newCap - (capacity b - b.gap_end) - b.gap_start
    simp only [buffer_content_length, capacity, buffer_gap_size,
      QALAM_BUFFER_GAP_GROW_SIZE] at *
    omega

end Qalam

namespace Qalam

/-!
## Content decomposition and the cursor walk
-/

theorem drop_append_cross' (l1 l2 : List Nat) (n : Nat) (h : l1.length ≤ n) :
    List.drop n (l1 ++ l2) = List.drop (n - l1.length) l2 := by
  conv_lhs => rw [show n = l1.length + (n - l1.length) from by omega]
  exact List.drop_append _

theorem content_take_gap_start (b : QalamBuffer) (hwf : BufferWF b) :
    (logicalContent b).take b.gap_start = b.data.take b.gap_start := by
  obtain ⟨hw1, hw2⟩ := hwf
  unfold logicalContent
  rw [List.take_append_of_le_length (by rw [List.length_take]; omega),
    List.take_take, min_self]

theorem content_drop_gap_start (b : QalamBuffer) (hwf : BufferWF b) :
    (logicalContent b).drop b.gap_start = b.data.drop b.gap_end := by
  obtain ⟨hw1, hw2⟩ := hwf
  unfold logicalContent
  rw [List.drop_left' (by rw [List.length_take]; omega)]

theorem update_cursor_fields (b : QalamBuffer) :
    (buffer_update_cursor_from_offset b).data = b.data ∧
    (buffer_update_cursor_from_offset b).gap_start = b.gap_start ∧
    (buffer_update_cursor_from_offset b).gap_end = b.gap_end ∧
    (buffer_update_cursor_from_offset b).line_count = b.line_count ∧
    (buffer_update_cursor_from_offset b).selection = b.selection ∧
    (buffer_update_cursor_from_offset b).modified = b.modified ∧
    (buffer_update_cursor_from_offset b).readonly = b.readonly ∧
    (buffer_update_cursor_from_offset b).filepath = b.filepath := by
  exact ⟨rfl, rfl, rfl, rfl, rfl, rfl, rfl, rfl⟩

theorem update_cursor_content (b : QalamBuffer) :
    logicalContent (buffer_update_cursor_from_offset b) = logicalContent b := rfl

theorem update_cursor_wf (b : QalamBuffer) (hwf : BufferWF b) :
    BufferWF (buffer_update_cursor_from_offset b) := hwf

theorem update_cursor_walk (b : QalamBuffer) (hwf : BufferWF b) :
    ((buffer_update_cursor_from_offset b).cursor_line,
      (buffer_update_cursor_from_offset b).cursor_column) = specCursorWalk b := by
  unfold buffer_update_cursor_from_offset specCursorWalk
  rw [content_take_gap_start b hwf]

theorem specCursorWalk_update (b : QalamBuffer) :
    specCursorWalk (buffer_update_cursor_from_offset b) = specCursorWalk b := rfl

/-!
## Ensure-gap dichotomy and the write step of insert
-/

theorem ensure_gap_ok_spec (b : QalamBuffer) (needed : Nat) (hwf : BufferWF b)
    (hok : (buffer_ensure_gap_size b needed).1 = QalamResult.ok) :
    (buffer_ensure_gap_size b needed).2.gap_start = b.gap_start ∧
    needed ≤ buffer_gap_size (buffer_ensure_gap_size b needed).2 ∧
    BufferWF (buffer_ensure_gap_size b needed).2 ∧
    logicalContent (buffer_ensure_gap_size b needed).2 = logicalContent b ∧
    (buffer_ensure_gap_size b needed).2.line_count = b.line_count ∧
    (buffer_ensure_gap_size b needed).2.cursor_line = b.cursor_line ∧
    (buffer_ensure_gap_size b needed).2.cursor_column = b.cursor_column ∧
    (buffer_ensure_gap_size b needed).2.selection = b.selection ∧
    (buffer_ensure_gap_size b needed).2.modified = b.modified ∧
    (buffer_ensure_gap_size b needed).2.readonly = b.readonly ∧
    (buffer_ensure_gap_size b needed).2.filepath = b.filepath := by
  by_cases h : needed ≤ buffer_gap_size b
  · rw [ensure_gap_noop b needed h]
    exact ⟨rfl, h, hwf, rfl, rfl, rfl, rfl, rfl, rfl, rfl, rfl⟩
  · by_cases hbig : buffer_content_length b + needed + QALAM_BUFFER_GAP_GROW_SIZE >
        QALAM_BUFFER_MAX_SIZE
    · rw [ensure_gap_oom b needed h hbig] at hok
      exact absurd hok (by simp)
    · obtain ⟨-, h2, h3, h4, h5, h6, h7, h8, h9, h10, h11, h12, h13, h14⟩ :=
        ensure_gap_grow b needed hwf h (by omega)
      exact ⟨h2, h7, h6, h5, h10, h8, h9, h11, h12, h13, h14⟩

theorem ensure_gap_not_ok (b : QalamBuffer) (needed : Nat)
    (hno : (buffer_ensure_gap_size b needed).1 ≠ QalamResult.ok) :
    buffer_ensure_gap_size b needed = (QalamResult.errOutOfMemory, b) := by
  by_cases h : needed ≤ buffer_gap_size b
  · rw [ensure_gap_noop b needed h] at hno ⊢
    exact absurd rfl hno
  · by_cases hbig : buffer_content_length b + needed + QALAM_BUFFER_GAP_GROW_SIZE >
        QALAM_BUFFER_MAX_SIZE
    · exact ensure_gap_oom b needed h hbig
    · unfold buffer_ensure_gap_size at hno
      rw [if_neg h, if_neg (by intro hc; exact absurd hc.2 (by omega))] at hno
      exact absurd rfl hno

theorem write_units_take (d units : List Nat) (gs : Nat) (hgs : gs ≤ d.length) :
    List.take (gs + units.length)
      (List.take gs d ++ units ++ List.drop (gs + units.length) d) =
      List.take gs d ++ units := by
  have hAB : (List.take gs d ++ units).length = gs + units.length := by
    rw [List.length_append, List.length_take]; omega
  rw [List.take_left' hAB]

theorem write_units_drop (d units : List Nat) (gs ge : Nat)
    (h1 : gs + units.length ≤ ge) (hgs : gs ≤ d.length) :
    List.drop ge (List.take gs d ++ units ++ List.drop (gs + units.length) d) =
      List.drop ge d := by
  have hAB : (List.take gs d ++ units).length = gs + units.length := by
    rw [List.length_append, List.length_take]; omega
  rw [drop_append_cross' _ _ ge (by omega), hAB, List.drop_drop]
  congr 1
  omega

theorem write_units_length (d units : List Nat) (gs ge : Nat)
    (h1 : gs + units.length ≤ ge) (h2 : ge ≤ d.length) :
    (List.take gs d ++ units ++ List.drop (gs + units.length) d).length = d.length := by
  simp only [List.length_append, List.length_take, List.length_drop]
  omega

end Qalam

namespace Qalam

/-!
## The insert operation
-/

theorem insert_ok_spec (b : QalamBuffer) (text units : List Nat) (hwf : BufferWF b)
    (hdec : utf8_to_utf16 text = some units) (htne : text.isEmpty = false)
    (hune : units.isEmpty = false)
    (hgok : (buffer_ensure_gap_size b units.length).1 = QalamResult.ok) :
    (qalam_buffer_insert b text).1 = QalamResult.ok ∧
    logicalContent (qalam_buffer_insert b text).2 =
      (logicalContent b).take b.gap_start ++ units ++ (logicalContent b).drop b.gap_start ∧
    (qalam_buffer_insert b text).2.gap_start = b.gap_start + units.length ∧
    BufferWF (qalam_buffer_insert b text).2 ∧
    (qalam_buffer_insert b text).2.line_count = b.line_count + count10 units ∧
    ((qalam_buffer_insert b text).2.cursor_line, (qalam_buffer_insert b text).2.cursor_column) =
      specCursorWalk (qalam_buffer_insert b text).2 ∧
    (qalam_buffer_insert b text).2.selection = b.selection ∧
    (qalam_buffer_insert b text).2.modified = true ∧
    (qalam_buffer_insert b text).2.readonly = b.readonly ∧
    (qalam_buffer_insert b text).2.filepath = b.filepath := by
  obtain ⟨hg1, hg2, hg3, hg4, hg5, hg6, hg7, hg8, hg9, hg10, hg11⟩ :=
    ensure_gap_ok_spec b units.length hwf hgok
  rcases hE : buffer_ensure_gap_size b units.length with ⟨r, b1⟩
  rw [hE] at hgok
  subst hgok
  have hb1 : b1 = (buffer_ensure_gap_size b units.length).2 := by rw [hE]
  rw [← hb1] at hg1 hg2 hg3 hg4 hg5 hg6 hg7 hg8 hg9 hg10 hg11
  obtain ⟨hw11, hw12⟩ := hg3
  have hufit : units.length ≤ b1.gap_end - b1.gap_start := hg2
  have hgs1 : b1.gap_start ≤ b1.data.length := by omega
  unfold qalam_buffer_insert
  rw [htne]
  simp only [Bool.false_eq_true, if_false, hdec, hune, hE]
  have hwf2 : BufferWF
      { b1 with
        data := b1.data.take b1.gap_start ++ units ++
                b1.data.drop (b1.gap_start + units.length),
        gap_start := b1.gap_start + units.length,
        line_count := b1.line_count + count10 units,
        modified := true } := by
    constructor
    · show b1.gap_start + units.length ≤ b1.gap_end
      omega
    · show b1.gap_end ≤ (b1.data.take b1.gap_start ++ units ++
        b1.data.drop (b1.gap_start + units.length)).length
      rw [write_units_length b1.data units b1.gap_start b1.gap_end (by omega) hw12]
      omega
  have hcont2 : logicalContent
      { b1 with
        data := b1.data.take b1.gap_start ++ units ++
                b1.data.drop (b1.gap_start + units.length),
        gap_start := b1.gap_start + units.length,
        line_count := b1.line_count + count10 units,
        modified := true } =
      (logicalContent b).take b.gap_start ++ units ++ (logicalContent b).drop b.gap_start := by
    show List.take (b1.gap_start + units.length) _ ++ List.drop b1.gap_end _ = _
    rw [write_units_take b1.data units b1.gap_start hgs1,
      write_units_drop b1.data units b1.gap_start b1.gap_end (by omega) hgs1]
    rw [← content_take_gap_start b1 ⟨by omega, hw12⟩,
      ← content_drop_gap_start b1 ⟨by omega, hw12⟩, hg4, hg1, List.append_assoc]
  refine ⟨trivial, ?_, ?_, ?_, ?_, ?_, ?_, rfl, ?_, ?_⟩
  · rw [update_cursor_content, hcont2]
  · show b1.gap_start + units.length = b.gap_start + units.length
    rw [hg1]
  · exact update_cursor_wf _ hwf2
  · show b1.line_count + count10 units = b.line_count + count10 units
    rw [hg5]
  · exact update_cursor_walk _ hwf2
  · show b1.selection = b.selection
    exact hg8
  · show b1.readonly = b.readonly
    exact hg10
  · show b1.filepath = b.filepath
    exact hg11

theorem insert_fail_unchanged (b : QalamBuffer) (text : List Nat)
    (hno : (qalam_buffer_insert b text).1 ≠ QalamResult.ok) :
    (qalam_buffer_insert b text).2 = b := by
  unfold qalam_buffer_insert at hno ⊢
  by_cases hte : text.isEmpty
  · rw [if_pos hte] at hno
    exact absurd rfl hno
  · rw [if_neg hte] at hno ⊢
    rcases hdec : utf8_to_utf16 text with - | units
    · rfl
    · rw [hdec] at hno
      by_cases hue : units.isEmpty
      · simp only [hue, if_true]
      · simp only [hue, Bool.false_eq_true, if_false] at hno ⊢
        by_cases hgok : (buffer_ensure_gap_size b units.length).1 = QalamResult.ok
        · rcases hE : buffer_ensure_gap_size b units.length with ⟨r, b1⟩
          rw [hE] at hno
          rw [hE] at hgok
          subst hgok
          exact absurd rfl hno
        · rw [ensure_gap_not_ok b units.length hgok] at hno ⊢

theorem insert_preserves_inv (b : QalamBuffer) (text : List Nat)
    (h : BufferWF b ∧ LineCountInv b) :
    BufferWF (qalam_buffer_insert b text).2 ∧ LineCountInv (qalam_buffer_insert b text).2 := by
  by_cases hok : (qalam_buffer_insert b text).1 = QalamResult.ok
  · by_cases hte : text.isEmpty
    · have : (qalam_buffer_insert b text).2 = b := by
        unfold qalam_buffer_insert; rw [if_pos hte]
      rw [this]; exact h
    · rcases hdec : utf8_to_utf16 text with - | units
      · have : (qalam_buffer_insert b text).2 = b := by
          unfold qalam_buffer_insert; rw [if_neg hte, hdec]
        rw [this]; exact h
      · by_cases hue : units.isEmpty
        · have : (qalam_buffer_insert b text).2 = b := by
            unfold qalam_buffer_insert; rw [if_neg hte, hdec]; simp only [hue, if_true]
          rw [this]; exact h
        · by_cases hgok : (buffer_ensure_gap_size b units.length).1 = QalamResult.ok
          · obtain ⟨-, hc2, -, hwf2, hlc2, -, -, -, -, -⟩ :=
              insert_ok_spec b text units h.1 hdec (by simpa using hte)
                (by simpa using hue) hgok
            refine ⟨hwf2, ?_⟩
            unfold LineCountInv
            rw [hc2, hlc2, h.2, count10_append, count10_append]
            have := count10_take_add_drop (logicalContent b) b.gap_start
            omega
          · have : (qalam_buffer_insert b text).2 = b := by
              apply insert_fail_unchanged
              unfold qalam_buffer_insert
              rw [if_neg hte, hdec]
              simp only [hue, Bool.false_eq_true, if_false]
              rw [ensure_gap_not_ok b units.length hgok]
              simp
            rw [this]; exact h
  · rw [insert_fail_unchanged b text hok]; exact h

end Qalam

namespace Qalam

/-!
## The forward-delete scan loop
-/

theorem getD_lt (l : List Nat) (i : Nat) (h : i < l.length) : l.getD i 0 = l[i] :=
  List.getD_eq_getElem l 0 h

theorem span_getD (data : List Nat) (ge t i : Nat) (hit : i < t) :
    ((data.drop ge).take t).getD i 0 = data.getD (ge + i) 0 := by
  rw [List.getD_eq_getElem?_getD, List.getD_eq_getElem?_getD,
    List.getElem?_take, if_pos hit, List.getElem?_drop]

theorem count10_drop_succ (l : List Nat) (i : Nat) (hi : i < l.length) :
    count10 (l.drop i) = (if l.getD i 0 = 10 then 1 else 0) + count10 (l.drop (i + 1)) := by
  rw [List.drop_eq_getElem_cons hi]
  simp only [count10, List.count_cons, getD_lt l i hi, beq_iff_eq]
  split <;> omega

theorem count10_span_step (data : List Nat) (ge t i : Nat) (hit : i < t)
    (hlen : ge + t ≤ data.length) :
    count10 (((data.drop ge).take t).drop i) =
      (if data.getD (ge + i) 0 = 10 then 1 else 0) +
        count10 (((data.drop ge).take t).drop (i + 1)) := by
  have hl : i < ((data.drop ge).take t).length := by
    rw [List.length_take, List.length_drop]
    omega
  rw [count10_drop_succ _ i hl, span_getD data ge t i hit]

theorem fwd_scan_noext (data : List Nat) (ge t : Nat)
    (hlen : ge + t ≤ data.length) (hnc : ¬ fwdExtCond data ge t) :
    ∀ fuel i nl, t ≤ fuel + i →
      delete_forward_scan data ge fuel i t nl =
        (t, nl + count10 (((data.drop ge).take t).drop i)) := by
  intro fuel
  induction fuel with
  | zero =>
    intro i nl hle
    unfold delete_forward_scan
    rw [List.drop_eq_nil_of_le (by rw [List.length_take, List.length_drop]; omega)]
    simp [count10]
  | succ fuel ih =>
    intro i nl hle
    unfold delete_forward_scan
    by_cases hit : i < t
    · rw [if_pos hit]
      have hcond : ¬ (i = t - 1 ∧ is_high_surrogate (data.getD (ge + i) 0) = true ∧
          ge + i + 1 < data.length ∧ is_low_surrogate (data.getD (ge + i + 1) 0) = true) := by
        rintro ⟨he1, he2, he3, he4⟩
        apply hnc
        refine ⟨?_, by omega, ?_⟩
        · rw [show ge + t - 1 = ge + i from by omega]
          exact he2
        · rw [show ge + t = ge + i + 1 from by omega]
          exact he4
      rw [if_neg hcond, ih (i + 1) _ (by omega)]
      rw [count10_span_step data ge t i hit hlen]
      split <;> (rw [Prod.mk.injEq]; exact ⟨rfl, by omega⟩)
    · rw [if_neg hit]
      rw [List.drop_eq_nil_of_le (by rw [List.length_take, List.length_drop]; omega)]
      simp [count10]

theorem fwd_scan_ext (data : List Nat) (ge t0 : Nat)
    (hlen : ge + t0 ≤ data.length) (ht0 : 1 ≤ t0) (hc : fwdExtCond data ge t0) :
    ∀ fuel i nl, i ≤ t0 - 1 → t0 + 2 ≤ fuel + i →
      delete_forward_scan data ge fuel i t0 nl =
        (t0 + 1, nl + count10 (((data.drop ge).take (t0 + 1)).drop i)) := by
  obtain ⟨hh, hmid, hl⟩ := hc
  have hlen1 : ge + (t0 + 1) ≤ data.length := by omega
  intro fuel
  induction fuel with
  | zero => intro i nl h1 h2; omega
  | succ fuel ih =>
    intro i nl h1 h2
    unfold delete_forward_scan
    rw [if_pos (by omega : i < t0)]
    by_cases hi : i = t0 - 1
    · have hcond : i = t0 - 1 ∧ is_high_surrogate (data.getD (ge + i) 0) = true ∧
          ge + i + 1 < data.length ∧ is_low_surrogate (data.getD (ge + i + 1) 0) = true := by
        refine ⟨hi, ?_, by omega, ?_⟩
        · rw [show ge + i = ge + t0 - 1 from by omega]
          exact hh
        · rw [show ge + i + 1 = ge + t0 from by omega]
          exact hl
      rw [if_pos hcond]
      have hnc2 : ¬ fwdExtCond data ge (t0 + 1) := by
        rintro ⟨hh2, -, -⟩
        rw [show ge + (t0 + 1) - 1 = ge + t0 from by omega] at hh2
        simp only [is_high_surrogate, is_low_surrogate, Bool.and_eq_true, decide_eq_true_eq] at hh2 hl
        omega
      rw [fwd_scan_noext data ge (t0 + 1) hlen1 hnc2 fuel (i + 1) _ (by omega)]
      rw [count10_span_step data ge (t0 + 1) i (by omega) hlen1]
      split <;> (rw [Prod.mk.injEq]; exact ⟨rfl, by omega⟩)
    · have hcond : ¬ (i = t0 - 1 ∧ is_high_surrogate (data.getD (ge + i) 0) = true ∧
          ge + i + 1 < data.length ∧ is_low_surrogate (data.getD (ge + i + 1) 0) = true) :=
        fun hc' => hi hc'.1
      rw [if_neg hcond, ih (i + 1) _ (by omega) (by omega)]
      rw [count10_span_step data ge (t0 + 1) i (by omega) hlen1]
      split <;> (rw [Prod.mk.injEq]; exact ⟨rfl, by omega⟩)

theorem delete_fwd_scan_eval (data : List Nat) (ge t0 : Nat)
    (hlen : ge + t0 ≤ data.length) (ht0 : 1 ≤ t0) :
    delete_forward_scan data ge (data.length - ge + 1) 0 t0 0 =
      (if fwdExtCond data ge t0 then t0 + 1 else t0,
        count10 ((data.drop ge).take (if fwdExtCond data ge t0 then t0 + 1 else t0))) := by
  by_cases hc : fwdExtCond data ge t0
  · rw [if_pos hc]
    have hmid := hc.2.1
    rw [fwd_scan_ext data ge t0 hlen ht0 hc (data.length - ge + 1) 0 0 (by omega) (by omega)]
    simp
  · rw [if_neg hc]
    rw [fwd_scan_noext data ge t0 hlen hc (data.length - ge + 1) 0 0 (by omega)]
    simp

end Qalam

namespace Qalam

/-!
## The delete operation
-/

theorem delete_zero (b : QalamBuffer) : qalam_buffer_delete b 0 = (QalamResult.ok, b) := by
  unfold qalam_buffer_delete
  rw [if_pos rfl]

theorem content_drop_shift (b : QalamBuffer) (hwf : BufferWF b) (T : Nat) :
    (logicalContent b).drop (b.gap_start + T) = b.data.drop (b.gap_end + T) := by
  rw [← List.drop_drop, content_drop_gap_start b hwf, List.drop_drop]

theorem delete_fwd_spec (b : QalamBuffer) (count : Int) (hwf : BufferWF b)
    (hpos : 0 < count) (ht0 : 0 < deleteFwdT0 b count) :
    (qalam_buffer_delete b count).1 = QalamResult.ok ∧
    (qalam_buffer_delete b count).2.gap_start = b.gap_start ∧
    (qalam_buffer_delete b count).2.gap_end = b.gap_end + deleteFwdSpan b count ∧
    (qalam_buffer_delete b count).2.data = b.data ∧
    logicalContent (qalam_buffer_delete b count).2 =
      (logicalContent b).take b.gap_start ++
        (logicalContent b).drop (b.gap_start + deleteFwdSpan b count) ∧
    BufferWF (qalam_buffer_delete b count).2 ∧
    (LineCountInv b → LineCountInv (qalam_buffer_delete b count).2) ∧
    (qalam_buffer_delete b count).2.selection = b.selection := by
  obtain ⟨hw1, hw2⟩ := hwf
  have hT0len : b.gap_end + deleteFwdT0 b count ≤ b.data.length := by
    unfold deleteFwdT0 capacity at *
    omega
  have hTlen : b.gap_end + deleteFwdSpan b count ≤ b.data.length := by
    unfold deleteFwdSpan
    split
    case isTrue hc => have := hc.2.1; omega
    case isFalse => exact hT0len
  have hspan : deleteFwdSpan b count =
      if fwdExtCond b.data b.gap_end (deleteFwdT0 b count) then deleteFwdT0 b count + 1
      else deleteFwdT0 b count := rfl
  unfold qalam_buffer_delete
  rw [if_neg (by omega : ¬ count = 0), if_pos hpos]
  simp only []
  rw [if_neg (by unfold deleteFwdT0 at ht0; omega :
    ¬ min count.toNat (capacity b - b.gap_end) = 0)]
  have hscan := delete_fwd_scan_eval b.data b.gap_end
    (min count.toNat (capacity b - b.gap_end)) hT0len ht0
  rw [show capacity b - b.gap_end + 1 = b.data.length - b.gap_end + 1 from rfl, hscan]
  simp only []
  have hTeq : (if fwdExtCond b.data b.gap_end (min count.toNat (capacity b - b.gap_end))
      then min count.toNat (capacity b - b.gap_end) + 1
      else min count.toNat (capacity b - b.gap_end)) = deleteFwdSpan b count := rfl
  rw [hTeq]
  have hwf2 : BufferWF
      { b with
        gap_end := b.gap_end + deleteFwdSpan b count,
        line_count :=
          if b.line_count - count10 ((b.data.drop b.gap_end).take (deleteFwdSpan b count)) < 1
          then 1
          else b.line_count - count10 ((b.data.drop b.gap_end).take (deleteFwdSpan b count)),
        modified := true } := by
    constructor
    · show b.gap_start ≤ b.gap_end + deleteFwdSpan b count
      omega
    · exact hTlen
  have hcont : logicalContent
      { b with
        gap_end := b.gap_end + deleteFwdSpan b count,
        line_count :=
          if b.line_count - count10 ((b.data.drop b.gap_end).take (deleteFwdSpan b count)) < 1
          then 1
          else b.line_count - count10 ((b.data.drop b.gap_end).take (deleteFwdSpan b count)),
        modified := true } =
      (logicalContent b).take b.gap_start ++
        (logicalContent b).drop (b.gap_start + deleteFwdSpan b count) := by
    show b.data.take b.gap_start ++ b.data.drop (b.gap_end + deleteFwdSpan b count) = _
    rw [content_take_gap_start b ⟨hw1, hw2⟩, content_drop_shift b ⟨hw1, hw2⟩]
  refine ⟨trivial, rfl, rfl, rfl, ?_, ?_, ?_, rfl⟩
  · rw [update_cursor_content, hcont]
  · exact update_cursor_wf _ hwf2
  · intro hinv
    unfold LineCountInv at hinv ⊢
    rw [update_cursor_content, hcont]
    show (if b.line_count - count10 ((b.data.drop b.gap_end).take (deleteFwdSpan b count)) < 1
        then 1
        else b.line_count - count10 ((b.data.drop b.gap_end).take (deleteFwdSpan b count))) = _
    have hdropeq : (logicalContent b).drop b.gap_start = b.data.drop b.gap_end :=
      content_drop_gap_start b ⟨hw1, hw2⟩
    have hB1 : count10 ((b.data.drop b.gap_end).take (deleteFwdSpan b count)) =
        count10 (((logicalContent b).drop b.gap_start).take (deleteFwdSpan b count)) := by
      rw [hdropeq]
    have hB2 : count10 ((logicalContent b).drop (b.gap_start + deleteFwdSpan b count)) =
        count10 (((logicalContent b).drop b.gap_start).drop (deleteFwdSpan b count)) := by
      rw [List.drop_drop]
    have hsplit := count10_take_add_drop (logicalContent b) b.gap_start
    have hsplit2 := count10_take_add_drop ((logicalContent b).drop b.gap_start)
      (deleteFwdSpan b count)
    rw [count10_append, hB1, hB2, hinv]
    split <;> omega

end Qalam

namespace Qalam

theorem delete_fwd_noop (b : QalamBuffer) (count : Int) (hpos : 0 < count)
    (ht0 : deleteFwdT0 b count = 0) : qalam_buffer_delete b count = (QalamResult.ok, b) := by
  unfold qalam_buffer_delete
  rw [if_neg (by omega : ¬ count = 0), if_pos hpos]
  simp only []
  rw [if_pos (by unfold deleteFwdT0 at ht0; exact ht0)]

theorem delete_bwd_noop (b : QalamBuffer) (count : Int) (hneg : ¬ 0 < count)
    (hne : ¬ count = 0) (ht0 : deleteBwdT0 b count = 0) :
    qalam_buffer_delete b count = (QalamResult.ok, b) := by
  unfold qalam_buffer_delete
  rw [if_neg hne, if_neg hneg]
  simp only []
  rw [if_pos (by unfold deleteBwdT0 at ht0; exact ht0)]

theorem delete_bwd_spec (b : QalamBuffer) (count : Int) (hwf : BufferWF b)
    (hneg : count < 0) (ht0 : 0 < deleteBwdT0 b count) :
    (qalam_buffer_delete b count).1 = QalamResult.ok ∧
    (qalam_buffer_delete b count).2.gap_start = b.gap_start - deleteBwdSpan b count ∧
    (qalam_buffer_delete b count).2.gap_end = b.gap_end ∧
    (qalam_buffer_delete b count).2.data = b.data ∧
    logicalContent (qalam_buffer_delete b count).2 =
      (logicalContent b).take (b.gap_start - deleteBwdSpan b count) ++
        (logicalContent b).drop b.gap_start ∧
    BufferWF (qalam_buffer_delete b count).2 ∧
    (LineCountInv b → LineCountInv (qalam_buffer_delete b count).2) ∧
    (qalam_buffer_delete b count).2.selection = b.selection ∧
    deleteBwdSpan b count ≤ b.gap_start := by
  obtain ⟨hw1, hw2⟩ := hwf
  have hT0 : deleteBwdT0 b count ≤ b.gap_start := by
    unfold deleteBwdT0; omega
  have hTle : deleteBwdSpan b count ≤ b.gap_start := by
    unfold deleteBwdSpan
    split
    case isTrue hc => have := hc.2.1; unfold deleteBwdT0 at *; omega
    case isFalse => exact hT0
  unfold qalam_buffer_delete
  rw [if_neg (by omega : ¬ count = 0), if_neg (by omega : ¬ 0 < count)]
  simp only []
  rw [if_neg (by unfold deleteBwdT0 at ht0; omega : ¬ min (-count).toNat b.gap_start = 0)]
  have hTeq : (if is_low_surrogate
        (b.data.getD (b.gap_start - min (-count).toNat b.gap_start) 0) = true ∧
        0 < b.gap_start - min (-count).toNat b.gap_start ∧
        is_high_surrogate
          (b.data.getD (b.gap_start - min (-count).toNat b.gap_start - 1) 0) = true
      then min (-count).toNat b.gap_start + 1
      else min (-count).toNat b.gap_start) = deleteBwdSpan b count := rfl
  rw [hTeq]
  have hwf2 : BufferWF
      { b with
        gap_start := b.gap_start - deleteBwdSpan b count,
        line_count :=
          if b.line_count -
              count10 ((b.data.take b.gap_start).drop (b.gap_start - deleteBwdSpan b count)) < 1
          then 1
          else b.line_count -
              count10 ((b.data.take b.gap_start).drop (b.gap_start - deleteBwdSpan b count)),
        modified := true } := by
    constructor
    · show b.gap_start - deleteBwdSpan b count ≤ b.gap_end
      omega
    · show b.gap_end ≤ b.data.length
      exact hw2
  have hcont : logicalContent
      { b with
        gap_start := b.gap_start - deleteBwdSpan b count,
        line_count :=
          if b.line_count -
              count10 ((b.data.take b.gap_start).drop (b.gap_start - deleteBwdSpan b count)) < 1
          then 1
          else b.line_count -
              count10 ((b.data.take b.gap_start).drop (b.gap_start - deleteBwdSpan b count)),
        modified := true } =
      (logicalContent b).take (b.gap_start - deleteBwdSpan b count) ++
        (logicalContent b).drop b.gap_start := by
    show b.data.take (b.gap_start - deleteBwdSpan b count) ++ b.data.drop b.gap_end = _
    rw [content_drop_gap_start b ⟨hw1, hw2⟩]
    congr 1
    unfold logicalContent
    rw [List.take_append_of_le_length (by rw [List.length_take]; omega),
      List.take_take, min_eq_left (by omega)]
  refine ⟨rfl, rfl, rfl, rfl, ?_, ?_, ?_, rfl, hTle⟩
  · rw [update_cursor_content, hcont]
  · exact update_cursor_wf _ hwf2
  · intro hinv
    unfold LineCountInv at hinv ⊢
    rw [update_cursor_content, hcont]
    show (if b.line_count -
          count10 ((b.data.take b.gap_start).drop (b.gap_start - deleteBwdSpan b count)) < 1
        then 1
        else b.line_count -
          count10 ((b.data.take b.gap_start).drop (b.gap_start - deleteBwdSpan b count))) = _
    have htakeeq : (logicalContent b).take b.gap_start = b.data.take b.gap_start :=
      content_take_gap_start b ⟨hw1, hw2⟩
    have hB1 : count10 ((logicalContent b).take (b.gap_start - deleteBwdSpan b count)) =
        count10 (((logicalContent b).take b.gap_start).take
          (b.gap_start - deleteBwdSpan b count)) := by
      rw [List.take_take, min_eq_left (by omega)]
    have hsplit := count10_take_add_drop (logicalContent b) b.gap_start
    have hsplit2 := count10_take_add_drop ((logicalContent b).take b.gap_start)
      (b.gap_start - deleteBwdSpan b count)
    rw [count10_append, hB1, hinv, htakeeq] at *
    split <;> omega

theorem delete_preserves_inv (b : QalamBuffer) (count : Int)
    (h : BufferWF b ∧ LineCountInv b) :
    BufferWF (qalam_buffer_delete b count).2 ∧ LineCountInv (qalam_buffer_delete b count).2 := by
  by_cases h0 : count = 0
  · subst h0; rw [delete_zero]; exact h
  · by_cases hpos : 0 < count
    · by_cases ht0 : deleteFwdT0 b count = 0
      · rw [delete_fwd_noop b count hpos ht0]; exact h
      · obtain ⟨-, -, -, -, -, hwf2, hinv2, -⟩ :=
          delete_fwd_spec b count h.1 hpos (by omega)
        exact ⟨hwf2, hinv2 h.2⟩
    · by_cases ht0 : deleteBwdT0 b count = 0
      · rw [delete_bwd_noop b count hpos h0 ht0]; exact h
      · obtain ⟨-, -, -, -, -, hwf2, hinv2, -, -⟩ :=
          delete_bwd_spec b count h.1 (by omega) (by omega)
        exact ⟨hwf2, hinv2 h.2⟩

end Qalam

namespace Qalam

/-!
## The delete_range operation
-/

theorem delete_range_err (b : QalamBuffer) (s0 e0 : Nat)
    (h : drStart s0 e0 > buffer_content_length b) :
    qalam_buffer_delete_range b s0 e0 = (QalamResult.errInvalidRange, b) := by
  unfold drStart at h
  unfold qalam_buffer_delete_range
  simp only []
  rw [if_pos h]

theorem delete_range_noop (b : QalamBuffer) (s0 e0 : Nat)
    (hle : ¬ drStart s0 e0 > buffer_content_length b)
    (h0 : drEnd b s0 e0 - drStart s0 e0 = 0) :
    qalam_buffer_delete_range b s0 e0 = (QalamResult.ok, b) := by
  unfold drEnd drEndRaw drStart at h0
  unfold drStart at hle
  unfold qalam_buffer_delete_range
  simp only []
  rw [if_neg hle, if_pos h0]

theorem delete_range_result (b : QalamBuffer) (s0 e0 : Nat)
    (hle : ¬ drStart s0 e0 > buffer_content_length b)
    (hne : ¬ drEnd b s0 e0 - drStart s0 e0 = 0) :
    qalam_buffer_delete_range b s0 e0 =
      (QalamResult.ok, buffer_update_cursor_from_offset
        { buffer_move_gap_to b (drStart s0 e0) with
          gap_end := (buffer_move_gap_to b (drStart s0 e0)).gap_end +
            (drEnd b s0 e0 - drStart s0 e0),
          line_count :=
            if b.line_count - buffer_count_newlines_in_range b (drStart s0 e0)
                (drEnd b s0 e0 - drStart s0 e0) < 1
            then 1
            else b.line_count - buffer_count_newlines_in_range b (drStart s0 e0)
                (drEnd b s0 e0 - drStart s0 e0),
          modified := true }) := by
  unfold qalam_buffer_delete_range
  simp only []
  rw [if_neg (by unfold drStart at hle; exact hle)]
  rw [if_neg (by unfold drEnd drEndRaw drStart at hne; exact hne)]
  rfl

theorem delete_range_ok_spec (b : QalamBuffer) (s0 e0 : Nat) (hwf : BufferWF b)
    (hle : ¬ drStart s0 e0 > buffer_content_length b)
    (hne : ¬ drEnd b s0 e0 - drStart s0 e0 = 0) :
    (qalam_buffer_delete_range b s0 e0).1 = QalamResult.ok ∧
    (qalam_buffer_delete_range b s0 e0).2.gap_start = drStart s0 e0 ∧
    logicalContent (qalam_buffer_delete_range b s0 e0).2 =
      (logicalContent b).take (drStart s0 e0) ++ (logicalContent b).drop (drEnd b s0 e0) ∧
    BufferWF (qalam_buffer_delete_range b s0 e0).2 ∧
    buffer_content_length (qalam_buffer_delete_range b s0 e0).2 =
      buffer_content_length b - (drEnd b s0 e0 - drStart s0 e0) ∧
    (LineCountInv b → LineCountInv (qalam_buffer_delete_range b s0 e0).2) ∧
    (qalam_buffer_delete_range b s0 e0).2.selection = b.selection := by
  obtain ⟨hw1, hw2⟩ := hwf
  have hsle : drStart s0 e0 ≤ buffer_content_length b := by omega
  have hs_le_eraw : drStart s0 e0 ≤ drEndRaw s0 e0 := by
    unfold drStart drEndRaw
    split <;> omega
  have hse : drStart s0 e0 ≤ drEnd b s0 e0 := by
    unfold drEnd
    split <;> omega
  have helen : drEnd b s0 e0 ≤ buffer_content_length b := by
    unfold drEnd
    split <;> omega
  obtain ⟨hm1, hm2, hm3, hm4⟩ := move_gap_to_spec b (drStart s0 e0) ⟨hw1, hw2⟩ hsle
  have hwfm := move_gap_to_wf b (drStart s0 e0) ⟨hw1, hw2⟩ hsle
  obtain ⟨hwm1, hwm2⟩ := hwfm
  have hnl : buffer_count_newlines_in_range b (drStart s0 e0)
      (drEnd b s0 e0 - drStart s0 e0) =
      count10 (((logicalContent b).take (drEnd b s0 e0)).drop (drStart s0 e0)) := by
    unfold buffer_count_newlines_in_range
    rw [show min (drStart s0 e0 + (drEnd b s0 e0 - drStart s0 e0))
      (buffer_content_length b) = drEnd b s0 e0 from by omega]
  have hclb : buffer_content_length b = b.data.length - (b.gap_end - b.gap_start) := rfl
  have hgsz : buffer_gap_size b = b.gap_end - b.gap_start := rfl
  rw [delete_range_result b s0 e0 hle hne]
  have hcont2 : logicalContent (buffer_update_cursor_from_offset
      { buffer_move_gap_to b (drStart s0 e0) with
        gap_end := (buffer_move_gap_to b (drStart s0 e0)).gap_end +
          (drEnd b s0 e0 - drStart s0 e0),
        line_count :=
          if b.line_count - buffer_count_newlines_in_range b (drStart s0 e0)
              (drEnd b s0 e0 - drStart s0 e0) < 1
          then 1
          else b.line_count - buffer_count_newlines_in_range b (drStart s0 e0)
              (drEnd b s0 e0 - drStart s0 e0),
        modified := true }) =
      (logicalContent b).take (drStart s0 e0) ++ (logicalContent b).drop (drEnd b s0 e0) := by
    rw [update_cursor_content]
    show (buffer_move_gap_to b (drStart s0 e0)).data.take
        (buffer_move_gap_to b (drStart s0 e0)).gap_start ++
      (buffer_move_gap_to b (drStart s0 e0)).data.drop
        ((buffer_move_gap_to b (drStart s0 e0)).gap_end +
          (drEnd b s0 e0 - drStart s0 e0)) = _
    rw [← content_take_gap_start (buffer_move_gap_to b (drStart s0 e0)) ⟨hwm1, hwm2⟩,
      ← content_drop_shift (buffer_move_gap_to b (drStart s0 e0)) ⟨hwm1, hwm2⟩
        (drEnd b s0 e0 - drStart s0 e0),
      hm4, hm1, show drStart s0 e0 + (drEnd b s0 e0 - drStart s0 e0) = drEnd b s0 e0 from by
        omega]
  have hwf2 : BufferWF
      { buffer_move_gap_to b (drStart s0 e0) with
        gap_end := (buffer_move_gap_to b (drStart s0 e0)).gap_end +
          (drEnd b s0 e0 - drStart s0 e0),
        line_count :=
          if b.line_count - buffer_count_newlines_in_range b (drStart s0 e0)
              (drEnd b s0 e0 - drStart s0 e0) < 1
          then 1
          else b.line_count - buffer_count_newlines_in_range b (drStart s0 e0)
              (drEnd b s0 e0 - drStart s0 e0),
        modified := true } := by
    constructor
    · show (buffer_move_gap_to b (drStart s0 e0)).gap_start ≤
        (buffer_move_gap_to b (drStart s0 e0)).gap_end + (drEnd b s0 e0 - drStart s0 e0)
      omega
    · show (buffer_move_gap_to b (drStart s0 e0)).gap_end +
          (drEnd b s0 e0 - drStart s0 e0) ≤
        (buffer_move_gap_to b (drStart s0 e0)).data.length
      rw [hm2, hm3]
      show drStart s0 e0 + (b.gap_end - b.gap_start) + (drEnd b s0 e0 - drStart s0 e0) ≤ _
      omega
  refine ⟨rfl, ?_, ?_, ?_, ?_, ?_, ?_⟩
  · show (buffer_move_gap_to b (drStart s0 e0)).gap_start = drStart s0 e0
    exact hm1
  · exact hcont2
  · exact update_cursor_wf _ hwf2
  · show (buffer_move_gap_to b (drStart s0 e0)).data.length -
      ((buffer_move_gap_to b (drStart s0 e0)).gap_end + (drEnd b s0 e0 - drStart s0 e0) -
        (buffer_move_gap_to b (drStart s0 e0)).gap_start) = _
    rw [hm1, hm2, hm3]
    show _ = buffer_content_length b - (drEnd b s0 e0 - drStart s0 e0)
    omega
  · intro hinv
    unfold LineCountInv at hinv ⊢
    rw [hcont2]
    show (if b.line_count - buffer_count_newlines_in_range b (drStart s0 e0)
          (drEnd b s0 e0 - drStart s0 e0) < 1
        then 1
        else b.line_count - buffer_count_newlines_in_range b (drStart s0 e0)
          (drEnd b s0 e0 - drStart s0 e0)) = _
    rw [hnl, count10_append, hinv]
    have hsplit := count10_take_add_drop (logicalContent b) (drEnd b s0 e0)
    have hsplit2 := count10_take_add_drop ((logicalContent b).take (drEnd b s0 e0))
      (drStart s0 e0)
    have htt : ((logicalContent b).take (drEnd b s0 e0)).take (drStart s0 e0) =
        (logicalContent b).take (drStart s0 e0) := by
      rw [List.take_take, min_eq_left hse]
    rw [htt] at hsplit2
    split <;> omega
  · show (buffer_move_gap_to b (drStart s0 e0)).selection = b.selection
    exact (move_gap_to_fields b (drStart s0 e0)).2.2.2.1

theorem delete_range_preserves_inv (b : QalamBuffer) (s0 e0 : Nat)
    (h : BufferWF b ∧ LineCountInv b) :
    BufferWF (qalam_buffer_delete_range b s0 e0).2 ∧
    LineCountInv (qalam_buffer_delete_range b s0 e0).2 := by
  by_cases hle : drStart s0 e0 > buffer_content_length b
  · rw [delete_range_err b s0 e0 hle]; exact h
  · by_cases hne : drEnd b s0 e0 - drStart s0 e0 = 0
    · rw [delete_range_noop b s0 e0 hle hne]; exact h
    · obtain ⟨-, -, -, hwf2, -, hinv2, -⟩ := delete_range_ok_spec b s0 e0 h.1 hle hne
      exact ⟨hwf2, hinv2 h.2⟩

end Qalam

namespace Qalam

/-!
## UTF-16 decoding of encoded scalar sequences
-/

theorem utf16Decode_cons_plain (u : Nat) (us : List Nat)
    (hh : is_high_surrogate u = false) (hl : is_low_surrogate u = false) :
    utf16Decode (u :: us) = (utf16Decode us).map (fun cs => u :: cs) := by
  rw [utf16Decode.eq_def]; simp [hh, hl]

theorem utf16Decode_cons_pair (u v : Nat) (us : List Nat)
    (hh : is_high_surrogate u = true) (hl : is_low_surrogate v = true) :
    utf16Decode (u :: v :: us) =
      (utf16Decode us).map
        (fun cs => (0x10000 + (u - 0xD800) * 1024 + (v - 0xDC00)) :: cs) := by
  rw [utf16Decode.eq_def]; simp [hh, hl]

theorem utf16_decode_encode (cs : List Nat) (h : ∀ c ∈ cs, ValidScalar c) :
    utf16Decode (utf16Encode cs) = some cs := by
  induction cs with
  | nil => simp [utf16Encode, utf16Decode]
  | cons c cs ih =>
    obtain ⟨h1, h2⟩ := h c (List.mem_cons_self c cs)
    have hcs : ∀ x ∈ cs, ValidScalar x := fun x hx => h x (List.mem_cons_of_mem _ hx)
    rw [utf16Encode_cons]
    by_cases hlt : c < 0x10000
    · have he : utf16EncodeChar c = [c] := by simp [utf16EncodeChar, hlt]
      have hh : is_high_surrogate c = false := by simp [is_high_surrogate]; omega
      have hl : is_low_surrogate c = false := by simp [is_low_surrogate]; omega
      rw [he, List.cons_append, List.nil_append, utf16Decode_cons_plain c _ hh hl,
        ih hcs]
      rfl
    · have he : utf16EncodeChar c =
          [0xD800 + (c - 0x10000) / 1024, 0xDC00 + (c - 0x10000) % 1024] := by
        simp [utf16EncodeChar, hlt]
      have hh : is_high_surrogate (0xD800 + (c - 0x10000) / 1024) = true := by
        simp [is_high_surrogate]; omega
      have hl : is_low_surrogate (0xDC00 + (c - 0x10000) % 1024) = true := by
        simp [is_low_surrogate]; omega
      rw [he, List.cons_append, List.cons_append, List.nil_append,
        utf16Decode_cons_pair _ _ _ hh hl, ih hcs]
      simp
      omega

end Qalam

namespace Qalam

/-!
## Bounds on the line and column scans
-/

theorem scanToLine_le (l : List Nat) (n : Nat) : scanToLine l n ≤ l.length := by
  induction l generalizing n with
  | nil => cases n <;> simp [scanToLine]
  | cons c rest ih =>
    cases n with
    | zero => simp [scanToLine]
    | succ m =>
      simp only [scanToLine, List.length_cons]
      split
      · have := ih m; omega
      · have := ih (m + 1); omega

theorem scanColumn_le (l : List Nat) (n : Nat) : scanColumn l n ≤ l.length := by
  induction l generalizing n with
  | nil => cases n <;> simp [scanColumn]
  | cons c rest ih =>
    cases n with
    | zero => simp [scanColumn]
    | succ m =>
      simp only [scanColumn, List.length_cons]
      split
      · omega
      · have := ih m; omega

theorem scanLineLen_le (l : List Nat) : scanLineLen l ≤ l.length := by
  induction l with
  | nil => simp [scanLineLen]
  | cons c rest ih =>
    simp only [scanLineLen, List.length_cons]
    split
    · omega
    · omega

theorem offset_from_line_column_le (b : QalamBuffer) (hwf : BufferWF b)
    (line column : Nat) :
    buffer_offset_from_line_column b line column ≤ buffer_content_length b := by
  unfold buffer_offset_from_line_column
  have h1 := scanToLine_le (logicalContent b) line
  have h2 := scanColumn_le ((logicalContent b).drop (scanToLine (logicalContent b) line))
    column
  rw [List.length_drop] at h2
  rw [← length_logicalContent b hwf]
  omega

theorem line_start_offset_le (b : QalamBuffer) (hwf : BufferWF b) (line : Nat) :
    buffer_get_line_start_offset b line ≤ buffer_content_length b := by
  unfold buffer_get_line_start_offset
  rw [← length_logicalContent b hwf]
  exact scanToLine_le _ _

theorem line_start_add_length_le (b : QalamBuffer) (hwf : BufferWF b) (line : Nat) :
    buffer_get_line_start_offset b line + buffer_get_line_length b line ≤
      buffer_content_length b := by
  unfold buffer_get_line_length buffer_get_line_start_offset
  have h1 := scanToLine_le (logicalContent b) line
  have h2 := scanLineLen_le ((logicalContent b).drop (scanToLine (logicalContent b) line))
  rw [List.length_drop] at h2
  rw [← length_logicalContent b hwf]
  omega

/-!
## Invariant preservation by the cursor and selection operations
-/

theorem move_gap_preserves_inv (b : QalamBuffer) (pos : Nat)
    (hpos : pos ≤ buffer_content_length b) (h : BufferWF b ∧ LineCountInv b) :
    BufferWF (buffer_move_gap_to b pos) ∧ LineCountInv (buffer_move_gap_to b pos) := by
  obtain ⟨-, -, -, h4⟩ := move_gap_to_spec b pos h.1 hpos
  refine ⟨move_gap_to_wf b pos h.1 hpos, ?_⟩
  unfold LineCountInv
  rw [(move_gap_to_fields b pos).2.2.1, h4]
  exact h.2

theorem set_cursor_preserves_inv (b : QalamBuffer) (line column : Nat)
    (h : BufferWF b ∧ LineCountInv b) :
    BufferWF (qalam_buffer_set_cursor b line column).2 ∧
    LineCountInv (qalam_buffer_set_cursor b line column).2 := by
  unfold qalam_buffer_set_cursor
  simp only []
  exact move_gap_preserves_inv b _ (offset_from_line_column_le b h.1 _ _) h

theorem set_cursor_offset_preserves_inv (b : QalamBuffer) (offset : Nat)
    (h : BufferWF b ∧ LineCountInv b) :
    BufferWF (qalam_buffer_set_cursor_offset b offset).2 ∧
    LineCountInv (qalam_buffer_set_cursor_offset b offset).2 := by
  unfold qalam_buffer_set_cursor_offset
  simp only []
  refine move_gap_preserves_inv b _ ?_ h
  split <;> split <;> omega

theorem move_cursor_preserves_inv (b : QalamBuffer) (dl dc : Int)
    (h : BufferWF b ∧ LineCountInv b) :
    BufferWF (qalam_buffer_move_cursor b dl dc).2 ∧
    LineCountInv (qalam_buffer_move_cursor b dl dc).2 := by
  unfold qalam_buffer_move_cursor
  simp only []
  exact set_cursor_preserves_inv b _ _ h

theorem cursor_to_start_preserves_inv (b : QalamBuffer)
    (h : BufferWF b ∧ LineCountInv b) :
    BufferWF (qalam_buffer_cursor_to_start b).2 ∧
    LineCountInv (qalam_buffer_cursor_to_start b).2 := by
  unfold qalam_buffer_cursor_to_start
  simp only []
  exact move_gap_preserves_inv b 0 (Nat.zero_le _) h

theorem cursor_to_end_preserves_inv (b : QalamBuffer)
    (h : BufferWF b ∧ LineCountInv b) :
    BufferWF (qalam_buffer_cursor_to_end b).2 ∧
    LineCountInv (qalam_buffer_cursor_to_end b).2 := by
  unfold qalam_buffer_cursor_to_end
  simp only []
  exact move_gap_preserves_inv b _ (Nat.le_refl _) h

theorem cursor_to_line_start_preserves_inv (b : QalamBuffer)
    (h : BufferWF b ∧ LineCountInv b) :
    BufferWF (qalam_buffer_cursor_to_line_start b).2 ∧
    LineCountInv (qalam_buffer_cursor_to_line_start b).2 := by
  unfold qalam_buffer_cursor_to_line_start
  simp only []
  exact move_gap_preserves_inv b _ (line_start_offset_le b h.1 _) h

theorem cursor_to_line_end_preserves_inv (b : QalamBuffer)
    (h : BufferWF b ∧ LineCountInv b) :
    BufferWF (qalam_buffer_cursor_to_line_end b).2 ∧
    LineCountInv (qalam_buffer_cursor_to_line_end b).2 := by
  unfold qalam_buffer_cursor_to_line_end
  simp only []
  exact move_gap_preserves_inv b _ (line_start_add_length_le b h.1 _) h

theorem set_selection_preserves_inv (b : QalamBuffer) (sl sc el ec : Nat)
    (h : BufferWF b ∧ LineCountInv b) :
    BufferWF (qalam_buffer_set_selection b sl sc el ec).2 ∧
    LineCountInv (qalam_buffer_set_selection b sl sc el ec).2 := by
  unfold qalam_buffer_set_selection
  simp only []
  exact h

theorem clear_selection_preserves_inv (b : QalamBuffer)
    (h : BufferWF b ∧ LineCountInv b) :
    BufferWF (qalam_buffer_clear_selection b) ∧
    LineCountInv (qalam_buffer_clear_selection b) := by
  unfold qalam_buffer_clear_selection
  exact h

theorem insert_at_preserves_inv (b : QalamBuffer) (offset : Nat) (text : List Nat)
    (h : BufferWF b ∧ LineCountInv b) :
    BufferWF (qalam_buffer_insert_at b offset text).2 ∧
    LineCountInv (qalam_buffer_insert_at b offset text).2 := by
  by_cases hgt : offset > buffer_content_length b
  · unfold qalam_buffer_insert_at
    rw [if_pos hgt]
    exact h
  · unfold qalam_buffer_insert_at
    rw [if_neg hgt]
    exact insert_preserves_inv _ text (move_gap_preserves_inv b offset (by omega) h)

/-!
## The replace operation
-/

theorem replace_ok_eq (b : QalamBuffer) (s e : Nat) (text : List Nat) (b1 : QalamBuffer)
    (hE : qalam_buffer_delete_range b s e = (QalamResult.ok, b1)) :
    qalam_buffer_replace b s e text =
      qalam_buffer_insert (buffer_move_gap_to b1 s) text := by
  unfold qalam_buffer_replace
  rw [hE]

theorem replace_preserves_inv (b : QalamBuffer) (s e : Nat) (text : List Nat)
    (hse : s ≤ e) (h : BufferWF b ∧ LineCountInv b) :
    BufferWF (qalam_buffer_replace b s e text).2 ∧
    LineCountInv (qalam_buffer_replace b s e text).2 := by
  have hds : drStart s e = s := by
    unfold drStart
    rw [if_neg (by omega)]
  by_cases hgt : drStart s e > buffer_content_length b
  · have herr := delete_range_err b s e hgt
    unfold qalam_buffer_replace
    rw [herr]
    exact h
  · by_cases h0 : drEnd b s e - drStart s e = 0
    · have hnoop := delete_range_noop b s e hgt h0
      unfold qalam_buffer_replace
      rw [hnoop]
      exact insert_preserves_inv _ text
        (move_gap_preserves_inv b s (by omega) h)
    · obtain ⟨hok, hgs, hcont, hwf2, hlen, hinvp, hsel⟩ :=
        delete_range_ok_spec b s e h.1 hgt h0
      have hE : qalam_buffer_delete_range b s e =
          (QalamResult.ok, (qalam_buffer_delete_range b s e).2) := by
        rcases hQ : qalam_buffer_delete_range b s e with ⟨r, b1⟩
        rw [hQ] at hok
        have hr : r = QalamResult.ok := hok
        rw [hr]
      rw [replace_ok_eq b s e text _ hE]
      refine insert_preserves_inv _ text
        (move_gap_preserves_inv _ s ?_ ⟨hwf2, hinvp h.2⟩)
      have hsraw : drStart s e ≤ drEndRaw s e := by
        unfold drStart drEndRaw
        split <;> omega
      have hse2 : drStart s e ≤ drEnd b s e := by
        unfold drEnd
        split <;> omega
      have helen : drEnd b s e ≤ buffer_content_length b := by
        unfold drEnd
        split <;> omega
      rw [hlen]
      omega

end Qalam

namespace Qalam

/-!
## Invariants along operation sequences
-/

theorem execOp_preserves_inv (b : QalamBuffer) (op : BufferOp)
    (hop : replaceArgsOK op = true) (h : BufferWF b ∧ LineCountInv b) :
    BufferWF (execOp b op) ∧ LineCountInv (execOp b op) := by
  cases op with
  | insert text => exact insert_preserves_inv b text h
  | insertAt offset text => exact insert_at_preserves_inv b offset text h
  | delete count => exact delete_preserves_inv b count h
  | deleteRange s e => exact delete_range_preserves_inv b s e h
  | replace s e text =>
    exact replace_preserves_inv b s e text (of_decide_eq_true hop) h
  | setCursor line column => exact set_cursor_preserves_inv b line column h
  | setCursorOffset offset => exact set_cursor_offset_preserves_inv b offset h
  | moveCursor dl dc => exact move_cursor_preserves_inv b dl dc h
  | cursorToStart => exact cursor_to_start_preserves_inv b h
  | cursorToEnd => exact cursor_to_end_preserves_inv b h
  | cursorToLineStart => exact cursor_to_line_start_preserves_inv b h
  | cursorToLineEnd => exact cursor_to_line_end_preserves_inv b h
  | setSelection sl sc el ec => exact set_selection_preserves_inv b sl sc el ec h
  | clearSelection => exact clear_selection_preserves_inv b h

theorem execOps_preserves_inv (ops : List BufferOp) (b : QalamBuffer)
    (hops : ∀ op ∈ ops, replaceArgsOK op = true) (h : BufferWF b ∧ LineCountInv b) :
    BufferWF (execOps b ops) ∧ LineCountInv (execOps b ops) := by
  induction ops generalizing b with
  | nil => exact h
  | cons op rest ih =>
    exact ih (execOp b op) (fun o ho => hops o (List.mem_cons_of_mem _ ho))
      (execOp_preserves_inv b op (hops op (List.mem_cons_self _ _)) h)

/-!
## The creation paths establish the invariants
-/

theorem create_with_capacity_inv (n : Nat) :
    BufferWF (qalam_buffer_create_with_capacity n) ∧
    LineCountInv (qalam_buffer_create_with_capacity n) := by
  unfold qalam_buffer_create_with_capacity
  simp only []
  constructor
  · refine ⟨Nat.zero_le _, ?_⟩
    show (if n < QALAM_BUFFER_INITIAL_CAPACITY then QALAM_BUFFER_INITIAL_CAPACITY else n) ≤
      (List.replicate
        (if n < QALAM_BUFFER_INITIAL_CAPACITY then QALAM_BUFFER_INITIAL_CAPACITY else n)
        0).length
    rw [List.length_replicate]
  · unfold LineCountInv logicalContent
    show (1:Nat) = 1 + count10 (List.take 0 _ ++ List.drop _ _)
    rw [List.take_zero, List.nil_append, List.drop_replicate]
    show 1 = 1 + count10 (List.replicate _ 0)
    rw [show (if n < QALAM_BUFFER_INITIAL_CAPACITY then QALAM_BUFFER_INITIAL_CAPACITY else n) -
      (if n < QALAM_BUFFER_INITIAL_CAPACITY then QALAM_BUFFER_INITIAL_CAPACITY else n) = 0
      from by omega]
    rfl

set_option maxRecDepth 10000 in
theorem create_cc_eq (m : Nat) : qalam_buffer_create_with_capacity m =
    { data := List.replicate
        (if m < QALAM_BUFFER_INITIAL_CAPACITY then QALAM_BUFFER_INITIAL_CAPACITY else m) 0,
      gap_start := 0,
      gap_end := if m < QALAM_BUFFER_INITIAL_CAPACITY then QALAM_BUFFER_INITIAL_CAPACITY else m,
      cursor_line := 0, cursor_column := 0, line_count := 1,
      selection := zeroSelection, filepath := [], modified := false, readonly := false } := rfl

set_option maxRecDepth 100000 in
set_option maxHeartbeats 2000000 in
theorem create_from_text_inv (text : List Nat) (b0 : QalamBuffer)
    (hE : (qalam_buffer_create_from_text text).2 = some b0) :
    BufferWF b0 ∧ LineCountInv b0 := by
  unfold qalam_buffer_create_from_text at hE
  by_cases he : text.isEmpty
  · rw [if_pos he] at hE
    simp only [] at hE
    obtain rfl := Option.some.inj hE
    exact create_with_capacity_inv _
  · rw [if_neg he] at hE
    rcases hU : utf8_to_utf16 text with _ | units
    · rw [hU] at hE
      simp at hE
    · rw [hU] at hE
      simp only [] at hE
      by_cases hui : units.isEmpty
      · rw [if_pos hui] at hE
        simp at hE
      · rw [if_neg hui] at hE
        rw [create_cc_eq] at hE
        simp only [] at hE
        obtain rfl := Option.some.inj hE
        unfold buffer_update_line_count
        simp only []
        refine ⟨⟨?_, ?_⟩, ?_⟩
        · show units.length ≤
            (if units.length + QALAM_BUFFER_INITIAL_GAP_SIZE < QALAM_BUFFER_INITIAL_CAPACITY
             then QALAM_BUFFER_INITIAL_CAPACITY
             else units.length + QALAM_BUFFER_INITIAL_GAP_SIZE)
          unfold QALAM_BUFFER_INITIAL_CAPACITY QALAM_BUFFER_INITIAL_GAP_SIZE
          split <;> omega
        · show (if units.length + QALAM_BUFFER_INITIAL_GAP_SIZE < QALAM_BUFFER_INITIAL_CAPACITY
             then QALAM_BUFFER_INITIAL_CAPACITY
             else units.length + QALAM_BUFFER_INITIAL_GAP_SIZE) ≤
            (units ++ (List.replicate
              (if units.length + QALAM_BUFFER_INITIAL_GAP_SIZE < QALAM_BUFFER_INITIAL_CAPACITY
               then QALAM_BUFFER_INITIAL_CAPACITY
               else units.length + QALAM_BUFFER_INITIAL_GAP_SIZE) 0).drop units.length).length
          rw [List.length_append, List.length_drop, List.length_replicate]
          unfold QALAM_BUFFER_INITIAL_CAPACITY QALAM_BUFFER_INITIAL_GAP_SIZE
          split <;> omega
        · rfl

end Qalam

namespace Qalam

/-!
## Support lemmas for the claim theorems
-/

theorem insert_encoding_fail (b : QalamBuffer) (text : List Nat)
    (htne : text.isEmpty = false) (hU : utf8_to_utf16 text = none) :
    qalam_buffer_insert b text = (QalamResult.errEncoding, b) := by
  unfold qalam_buffer_insert
  rw [if_neg (by simp [htne]), hU]

set_option maxRecDepth 100000 in
set_option maxHeartbeats 2000000 in
theorem create_from_text_spec (text units : List Nat) (htne : text.isEmpty = false)
    (hU : utf8_to_utf16 text = some units) (hune : units.isEmpty = false) :
    (qalam_buffer_create_from_text text).1 = QalamResult.ok ∧
    ∃ b0, (qalam_buffer_create_from_text text).2 = some b0 ∧
      logicalContent b0 = units ∧
      buffer_content_length b0 = units.length ∧
      BufferWF b0 ∧ LineCountInv b0 := by
  unfold qalam_buffer_create_from_text
  rw [if_neg (by simp [htne]), hU]
  simp only []
  rw [if_neg (by simp [hune])]
  rw [create_cc_eq]
  simp only []
  set c := if units.length + QALAM_BUFFER_INITIAL_GAP_SIZE < QALAM_BUFFER_INITIAL_CAPACITY
    then QALAM_BUFFER_INITIAL_CAPACITY else units.length + QALAM_BUFFER_INITIAL_GAP_SIZE
    with hc
  have hcge : units.length ≤ c := by
    rw [hc]
    unfold QALAM_BUFFER_INITIAL_CAPACITY QALAM_BUFFER_INITIAL_GAP_SIZE
    split <;> omega
  have hdlen : (units ++ (List.replicate c 0).drop units.length).length = c := by
    rw [List.length_append, List.length_drop, List.length_replicate]
    omega
  refine ⟨by trivial, _, by trivial, ?_, ?_, ⟨?_, ?_⟩, ?_⟩
  · show (units ++ (List.replicate c 0).drop units.length).take units.length ++
      (units ++ (List.replicate c 0).drop units.length).drop c = units
    rw [List.take_left' rfl, List.drop_eq_nil_of_le (by rw [hdlen]), List.append_nil]
  · show (units ++ (List.replicate c 0).drop units.length).length - (c - units.length) =
      units.length
    rw [hdlen]
    omega
  · show units.length ≤ c
    exact hcge
  · show c ≤ (units ++ (List.replicate c 0).drop units.length).length
    rw [hdlen]
  · rfl

end Qalam

namespace Qalam

/-!
## The readonly flag is dead state for the mutating operations
-/

theorem setReadonly_data (b : QalamBuffer) (r : Bool) : (setReadonly b r).data = b.data := rfl

theorem setReadonly_gap_start (b : QalamBuffer) (r : Bool) :
    (setReadonly b r).gap_start = b.gap_start := rfl

theorem setReadonly_gap_end (b : QalamBuffer) (r : Bool) :
    (setReadonly b r).gap_end = b.gap_end := rfl

theorem setReadonly_line_count (b : QalamBuffer) (r : Bool) :
    (setReadonly b r).line_count = b.line_count := rfl

theorem setReadonly_capacity (b : QalamBuffer) (r : Bool) :
    capacity (setReadonly b r) = capacity b := rfl

theorem setReadonly_gap_size (b : QalamBuffer) (r : Bool) :
    buffer_gap_size (setReadonly b r) = buffer_gap_size b := rfl

theorem setReadonly_content_length (b : QalamBuffer) (r : Bool) :
    buffer_content_length (setReadonly b r) = buffer_content_length b := rfl

theorem setReadonly_logicalContent (b : QalamBuffer) (r : Bool) :
    logicalContent (setReadonly b r) = logicalContent b := rfl

theorem setReadonly_count_newlines (b : QalamBuffer) (r : Bool) (s l : Nat) :
    buffer_count_newlines_in_range (setReadonly b r) s l =
      buffer_count_newlines_in_range b s l := rfl

theorem update_cursor_setReadonly (b : QalamBuffer) (r : Bool) :
    buffer_update_cursor_from_offset (setReadonly b r) =
      setReadonly (buffer_update_cursor_from_offset b) r := rfl

theorem move_gap_setReadonly (b : QalamBuffer) (pos : Nat) (r : Bool) :
    buffer_move_gap_to (setReadonly b r) pos = setReadonly (buffer_move_gap_to b pos) r := by
  unfold buffer_move_gap_to
  simp only [setReadonly_gap_start, setReadonly_gap_end, setReadonly_data,
    setReadonly_gap_size]
  by_cases h1 : pos = b.gap_start
  · simp only [if_pos h1]
  · simp only [if_neg h1]
    by_cases h2 : pos < b.gap_start
    · simp only [if_pos h2]
      rfl
    · simp only [if_neg h2]
      rfl

theorem ensure_gap_setReadonly (b : QalamBuffer) (needed : Nat) (r : Bool) :
    buffer_ensure_gap_size (setReadonly b r) needed =
      ((buffer_ensure_gap_size b needed).1,
        setReadonly (buffer_ensure_gap_size b needed).2 r) := by
  unfold buffer_ensure_gap_size
  simp only []
  simp only [setReadonly_gap_size, setReadonly_content_length, setReadonly_capacity,
    setReadonly_data, setReadonly_gap_start, setReadonly_gap_end]
  by_cases h1 : needed ≤ buffer_gap_size b
  · simp only [if_pos h1]
  · simp only [if_neg h1]
    by_cases h2 : max (capacity b * 2)
        (buffer_content_length b + needed + QALAM_BUFFER_GAP_GROW_SIZE) >
        QALAM_BUFFER_MAX_SIZE ∧
        buffer_content_length b + needed + QALAM_BUFFER_GAP_GROW_SIZE >
        QALAM_BUFFER_MAX_SIZE
    · simp only [if_pos h2]
    · simp only [if_neg h2]
      rfl

theorem insert_setReadonly (b : QalamBuffer) (text : List Nat) (r : Bool) :
    qalam_buffer_insert (setReadonly b r) text =
      ((qalam_buffer_insert b text).1, setReadonly (qalam_buffer_insert b text).2 r) := by
  unfold qalam_buffer_insert
  by_cases hte : text.isEmpty
  · simp only [if_pos hte]
  · simp only [if_neg hte]
    rcases hU : utf8_to_utf16 text with _ | units
    · rfl
    · by_cases hue : units.isEmpty
      · simp only [if_pos hue]
      · simp only [if_neg hue]
        rw [ensure_gap_setReadonly]
        rcases hE : buffer_ensure_gap_size b units.length with ⟨er, b1⟩
        cases er
        · simp only []
          rfl
        all_goals rfl

theorem delete_setReadonly (b : QalamBuffer) (count : Int) (r : Bool) :
    qalam_buffer_delete (setReadonly b r) count =
      ((qalam_buffer_delete b count).1, setReadonly (qalam_buffer_delete b count).2 r) := by
  unfold qalam_buffer_delete
  simp only []
  simp only [setReadonly_capacity, setReadonly_gap_end, setReadonly_gap_start,
    setReadonly_data, setReadonly_line_count]
  by_cases h0 : count = 0
  · simp only [if_pos h0]
  · simp only [if_neg h0]
    by_cases hp : 0 < count
    · simp only [if_pos hp]
      by_cases ht : min count.toNat (capacity b - b.gap_end) = 0
      · simp only [if_pos ht]
      · simp only [if_neg ht]
        rfl
    · simp only [if_neg hp]
      by_cases ht : min (-count).toNat b.gap_start = 0
      · simp only [if_pos ht]
      · simp only [if_neg ht]
        rfl

theorem delete_range_setReadonly (b : QalamBuffer) (s0 e0 : Nat) (r : Bool) :
    qalam_buffer_delete_range (setReadonly b r) s0 e0 =
      ((qalam_buffer_delete_range b s0 e0).1,
        setReadonly (qalam_buffer_delete_range b s0 e0).2 r) := by
  unfold qalam_buffer_delete_range
  simp only []
  simp only [setReadonly_content_length, setReadonly_line_count,
    setReadonly_count_newlines]
  by_cases h1 : (if s0 > e0 then e0 else s0) > buffer_content_length b
  · simp only [if_pos h1]
  · simp only [if_neg h1]
    by_cases h2 : (if (if s0 > e0 then s0 else e0) > buffer_content_length b
        then buffer_content_length b
        else (if s0 > e0 then s0 else e0)) - (if s0 > e0 then e0 else s0) = 0
    · simp only [if_pos h2]
    · simp only [if_neg h2]
      rw [move_gap_setReadonly]
      rfl

theorem replace_setReadonly (b : QalamBuffer) (s e : Nat) (text : List Nat) (r : Bool) :
    qalam_buffer_replace (setReadonly b r) s e text =
      ((qalam_buffer_replace b s e text).1,
        setReadonly (qalam_buffer_replace b s e text).2 r) := by
  unfold qalam_buffer_replace
  rw [delete_range_setReadonly]
  rcases hD : qalam_buffer_delete_range b s e with ⟨res, b1⟩
  cases res
  · simp only []
    rw [move_gap_setReadonly, insert_setReadonly]
  all_goals rfl

theorem save_setReadonly (b : QalamBuffer) (fp : List Nat) (fo wo : Bool) (r : Bool) :
    qalam_buffer_save (setReadonly b r) fp fo wo =
      ((qalam_buffer_save b fp fo wo).1, setReadonly (qalam_buffer_save b fp fo wo).2 r) := by
  unfold qalam_buffer_save
  simp only []
  simp only [setReadonly_content_length, setReadonly_logicalContent]
  by_cases hf : fo = false
  · simp only [if_pos hf]
  · simp only [if_neg hf]
    rcases hX : (if buffer_content_length b = 0 then none
        else utf16_to_utf8 (logicalContent b)) with _ | bs
    · rfl
    · by_cases hw : wo = false
      · simp only [if_pos hw]
      · simp only [if_neg hw]
        rfl

end Qalam

namespace Qalam

/-!
## Cursor recomputation after a successful insert
-/

theorem insert_cursor_walk (b : QalamBuffer) (text : List Nat) (hwf : BufferWF b)
    (htne : text.isEmpty = false) (hok : (qalam_buffer_insert b text).1 = QalamResult.ok) :
    ((qalam_buffer_insert b text).2.cursor_line, (qalam_buffer_insert b text).2.cursor_column) =
      specCursorWalk (qalam_buffer_insert b text).2 := by
  rcases hU : utf8_to_utf16 text with _ | units
  · rw [insert_encoding_fail b text htne hU] at hok
    exact QalamResult.noConfusion hok
  · by_cases hue : units.isEmpty
    · have heq : qalam_buffer_insert b text = (QalamResult.errEncoding, b) := by
        unfold qalam_buffer_insert
        rw [if_neg (by simp [htne]), hU]
        simp only []
        rw [if_pos hue]
      rw [heq] at hok
      exact QalamResult.noConfusion hok
    · have hune : units.isEmpty = false := by
        cases hx : units.isEmpty with
        | false => rfl
        | true => exact absurd hx hue
      by_cases hgok : (buffer_ensure_gap_size b units.length).1 = QalamResult.ok
      · exact (insert_ok_spec b text units hwf hU htne hune hgok).2.2.2.2.2.1
      · exfalso
        have heq : (qalam_buffer_insert b text).1 =
            (buffer_ensure_gap_size b units.length).1 := by
          unfold qalam_buffer_insert
          rw [if_neg (by simp [htne]), hU]
          simp only []
          rw [if_neg hue]

        rw [heq] at hok
        exact hgok hok

end Qalam

namespace Qalam

/-!
## Claim C5: delete_range normalization and clamping
-/

/-- C5 (amended): qalam_buffer_delete_range swaps a reversed range, but only
the end offset is clamped to the content length: a normalized start beyond
the content is rejected with QALAM_ERROR_INVALID_RANGE and the buffer is left
unchanged; when the normalized start is in range the call succeeds and
removes exactly the span between the normalized start and the clamped end. -/
theorem claim_C5_delete_range_spec (b : QalamBuffer) (s e : Nat) (hwf : BufferWF b) :
    (drStart s e > buffer_content_length b →
      qalam_buffer_delete_range b s e = (QalamResult.errInvalidRange, b)) ∧
    (drStart s e ≤ buffer_content_length b →
      (qalam_buffer_delete_range b s e).1 = QalamResult.ok ∧
      logicalContent (qalam_buffer_delete_range b s e).2 =
        (logicalContent b).take (drStart s e) ++ (logicalContent b).drop (drEnd b s e)) := by
  refine ⟨fun hgt => delete_range_err b s e hgt, fun hles => ?_⟩
  have hle : ¬ drStart s e > buffer_content_length b := by omega
  by_cases h0 : drEnd b s e - drStart s e = 0
  · rw [delete_range_noop b s e hle h0]
    refine ⟨rfl, ?_⟩
    have hsraw : drStart s e ≤ drEndRaw s e := by
      unfold drStart drEndRaw
      split <;> omega
    have hse2 : drStart s e ≤ drEnd b s e := by
      unfold drEnd
      split <;> omega
    rw [show drEnd b s e = drStart s e from by omega]
    exact (List.take_append_drop _ _).symm
  · obtain ⟨hok, -, hcont, -, -, -, -⟩ := delete_range_ok_spec b s e hwf hle h0
    exact ⟨hok, hcont⟩

/-- C5 witness: a reversed range whose normalized start lies beyond the
content of a one-character buffer is rejected. -/
theorem claim_C5_delete_range_spec_witness :
    BufferWF ⟨[97], 1, 1, 0, 0, 1, zeroSelection, [], false, false⟩ ∧
    drStart 9 5 >
      buffer_content_length ⟨[97], 1, 1, 0, 0, 1, zeroSelection, [], false, false⟩ ∧
    qalam_buffer_delete_range ⟨[97], 1, 1, 0, 0, 1, zeroSelection, [], false, false⟩ 9 5 =
      (QalamResult.errInvalidRange,
        ⟨[97], 1, 1, 0, 0, 1, zeroSelection, [], false, false⟩) :=
  ⟨by decide, by decide,
    (claim_C5_delete_range_spec ⟨[97], 1, 1, 0, 0, 1, zeroSelection, [], false, false⟩
      9 5 (by decide)).1 (by decide)⟩

/-- C5 counterexample to the spec's wording: the start offset is not clamped
to the content length, so delete_range(2, 3) on a one-character buffer
returns an invalid-range error instead of succeeding. -/
theorem claim_C5_counterexample :
    (qalam_buffer_delete_range ⟨[97], 1, 1, 0, 0, 1, zeroSelection, [], false, false⟩
      2 3).1 = QalamResult.errInvalidRange := by
  decide

/-!
## Claim C7: gap growth policy
-/

/-- C7: buffer_ensure_gap_size is a no-op when the gap is large enough;
otherwise it grows the capacity to max(2 x capacity, content + needed +
growth increment) capped at the hard maximum, keeping the content, and
reports out-of-memory with the buffer unchanged when the minimum requirement
itself exceeds the cap. -/
theorem claim_C7_ensure_gap (b : QalamBuffer) (needed : Nat) (hwf : BufferWF b) :
    (needed ≤ buffer_gap_size b → buffer_ensure_gap_size b needed = (QalamResult.ok, b)) ∧
    (¬ needed ≤ buffer_gap_size b →
      buffer_content_length b + needed + QALAM_BUFFER_GAP_GROW_SIZE >
        QALAM_BUFFER_MAX_SIZE →
      buffer_ensure_gap_size b needed = (QalamResult.errOutOfMemory, b)) ∧
    (¬ needed ≤ buffer_gap_size b →
      buffer_content_length b + needed + QALAM_BUFFER_GAP_GROW_SIZE ≤
        QALAM_BUFFER_MAX_SIZE →
      (buffer_ensure_gap_size b needed).1 = QalamResult.ok ∧
      (buffer_ensure_gap_size b needed).2.data.length =
        min (max (capacity b * 2)
          (buffer_content_length b + needed + QALAM_BUFFER_GAP_GROW_SIZE))
          QALAM_BUFFER_MAX_SIZE ∧
      needed ≤ buffer_gap_size (buffer_ensure_gap_size b needed).2 ∧
      logicalContent (buffer_ensure_gap_size b needed).2 = logicalContent b) := by
  refine ⟨ensure_gap_noop b needed, ensure_gap_oom b needed, fun h1 h2 => ?_⟩
  obtain ⟨g1, g2, g3, g4, g5, g6, g7, -⟩ := ensure_gap_grow b needed hwf h1 h2
  exact ⟨g1, g3, g7, g5⟩

/-- C7 witness: a gap of two units already satisfies a one-unit request. -/
theorem claim_C7_ensure_gap_witness :
    BufferWF ⟨[0, 0], 0, 2, 0, 0, 1, zeroSelection, [], false, false⟩ ∧
    1 ≤ buffer_gap_size ⟨[0, 0], 0, 2, 0, 0, 1, zeroSelection, [], false, false⟩ ∧
    buffer_ensure_gap_size ⟨[0, 0], 0, 2, 0, 0, 1, zeroSelection, [], false, false⟩ 1 =
      (QalamResult.ok, ⟨[0, 0], 0, 2, 0, 0, 1, zeroSelection, [], false, false⟩) :=
  ⟨by decide, by decide,
    (claim_C7_ensure_gap ⟨[0, 0], 0, 2, 0, 0, 1, zeroSelection, [], false, false⟩ 1
      (by decide)).1 (by decide)⟩

/-!
## Claim C8: selection offsets against the content length
-/

/-- C8 (amended): immediately after qalam_buffer_set_selection both stored
selection endpoint offsets lie within the content length; the bound is not
maintained by later mutating operations. -/
theorem claim_C8_selection_bounds (b : QalamBuffer) (sl sc el ec : Nat)
    (hwf : BufferWF b) :
    (qalam_buffer_set_selection b sl sc el ec).2.selection.start.offset ≤
      buffer_content_length (qalam_buffer_set_selection b sl sc el ec).2 ∧
    (qalam_buffer_set_selection b sl sc el ec).2.selection.endPos.offset ≤
      buffer_content_length (qalam_buffer_set_selection b sl sc el ec).2 := by
  unfold qalam_buffer_set_selection
  simp only []
  exact ⟨offset_from_line_column_le b hwf _ _, offset_from_line_column_le b hwf _ _⟩

/-- C8 witness: selecting the whole line of a three-character buffer. -/
theorem claim_C8_selection_bounds_witness :
    BufferWF ⟨[97, 98, 99], 3, 3, 0, 0, 1, zeroSelection, [], false, false⟩ ∧
    ((qalam_buffer_set_selection ⟨[97, 98, 99], 3, 3, 0, 0, 1, zeroSelection, [], false,
        false⟩ 0 0 0 3).2.selection.start.offset ≤
      buffer_content_length (qalam_buffer_set_selection
        ⟨[97, 98, 99], 3, 3, 0, 0, 1, zeroSelection, [], false, false⟩ 0 0 0 3).2 ∧
    (qalam_buffer_set_selection ⟨[97, 98, 99], 3, 3, 0, 0, 1, zeroSelection, [], false,
        false⟩ 0 0 0 3).2.selection.endPos.offset ≤
      buffer_content_length (qalam_buffer_set_selection
        ⟨[97, 98, 99], 3, 3, 0, 0, 1, zeroSelection, [], false, false⟩ 0 0 0 3).2) :=
  ⟨by decide,
    claim_C8_selection_bounds ⟨[97, 98, 99], 3, 3, 0, 0, 1, zeroSelection, [], false,
      false⟩ 0 0 0 3 (by decide)⟩

/-- C8 counterexample to the claim as stated: deleting the selected range
leaves the still-active selection's end offset beyond the shrunken content. -/
theorem claim_C8_counterexample :
    ((qalam_buffer_delete_range
        (qalam_buffer_set_selection
          ⟨[97, 98, 99], 3, 3, 0, 0, 1, zeroSelection, [], false, false⟩ 0 0 0 3).2
        0 3).2.selection.is_active = true) ∧
    ((qalam_buffer_delete_range
        (qalam_buffer_set_selection
          ⟨[97, 98, 99], 3, 3, 0, 0, 1, zeroSelection, [], false, false⟩ 0 0 0 3).2
        0 3).2.selection.endPos.offset >
      buffer_content_length (qalam_buffer_delete_range
        (qalam_buffer_set_selection
          ⟨[97, 98, 99], 3, 3, 0, 0, 1, zeroSelection, [], false, false⟩ 0 0 0 3).2
        0 3).2) := by
  exact ⟨by decide, by decide⟩

/-!
## Claim C9: the readonly flag is never consulted
-/

/-- C9: flipping the readonly flag changes nothing about what insert, delete,
delete_range, replace and save do: each returns the same result code and the
same buffer up to that flag. -/
theorem claim_C9_readonly_ignored (b : QalamBuffer) (text : List Nat) (count : Int)
    (s e : Nat) (rtext fp : List Nat) (fo wo r : Bool) :
    (qalam_buffer_insert (setReadonly b r) text =
      ((qalam_buffer_insert b text).1, setReadonly (qalam_buffer_insert b text).2 r)) ∧
    (qalam_buffer_delete (setReadonly b r) count =
      ((qalam_buffer_delete b count).1, setReadonly (qalam_buffer_delete b count).2 r)) ∧
    (qalam_buffer_delete_range (setReadonly b r) s e =
      ((qalam_buffer_delete_range b s e).1,
        setReadonly (qalam_buffer_delete_range b s e).2 r)) ∧
    (qalam_buffer_replace (setReadonly b r) s e rtext =
      ((qalam_buffer_replace b s e rtext).1,
        setReadonly (qalam_buffer_replace b s e rtext).2 r)) ∧
    (qalam_buffer_save (setReadonly b r) fp fo wo =
      ((qalam_buffer_save b fp fo wo).1, setReadonly (qalam_buffer_save b fp fo wo).2 r)) :=
  ⟨insert_setReadonly b text r, delete_setReadonly b count r,
    delete_range_setReadonly b s e r, replace_setReadonly b s e rtext r,
    save_setReadonly b fp fo wo r⟩

/-!
## Claim C10: inactive selection is not an error
-/

/-- C10: with a non-zero output buffer and no active selection,
qalam_buffer_get_selected_text reports success with an empty result. -/
theorem claim_C10_inactive_selection (b : QalamBuffer) (out_size : Nat)
    (hact : b.selection.is_active = false) (hout : out_size ≠ 0) :
    qalam_buffer_get_selected_text b out_size = (QalamResult.ok, [], 0) := by
  unfold qalam_buffer_get_selected_text
  rw [if_neg hout, if_pos hact]

/-- C10 witness: the zero-initialized selection of a fresh buffer is
inactive. -/
theorem claim_C10_inactive_selection_witness :
    (qalam_buffer_create.selection.is_active = false ∧ (1 : Nat) ≠ 0) ∧
    qalam_buffer_get_selected_text qalam_buffer_create 1 = (QalamResult.ok, [], 0) :=
  ⟨⟨rfl, by decide⟩, claim_C10_inactive_selection qalam_buffer_create 1 rfl (by decide)⟩

end Qalam

namespace Qalam

/-!
## Claim C1: the create / get_content round trip
-/

theorem create_content_length_zero : buffer_content_length qalam_buffer_create = 0 := by
  unfold qalam_buffer_create qalam_buffer_create_with_capacity buffer_content_length
    capacity buffer_gap_size
  simp only []
  rw [List.length_replicate]
  omega

/-- C1: for every byte list T that decodes as UTF-8 (hence carries no
surrogate code points) and an output buffer larger than T, creating from T
and reading the content back returns QALAM_OK and reproduces T exactly. -/
theorem claim_C1_roundtrip (T cps : List Nat) (out_size : Nat)
    (hdec : utf8Decode T = some cps) (hout : T.length < out_size) :
    ∃ b0, (qalam_buffer_create_from_text T).2 = some b0 ∧
      qalam_buffer_get_content b0 out_size = (QalamResult.ok, T, T.length) := by
  cases T with
  | nil =>
    refine ⟨qalam_buffer_create, rfl, ?_⟩
    unfold qalam_buffer_get_content
    rw [if_neg (by omega), if_pos create_content_length_zero]
    rfl
  | cons t ts =>
    have hU : utf8_to_utf16 (t :: ts) = some (utf16Encode cps) := by
      unfold utf8_to_utf16
      rw [hdec]
      rfl
    have hcne : cps ≠ [] := utf8Decode_cons_ne_nil t ts cps hdec
    obtain ⟨c, cs', rfl⟩ : ∃ c cs', cps = c :: cs' := by
      cases cps with
      | nil => exact absurd rfl hcne
      | cons c cs' => exact ⟨c, cs', rfl⟩
    have hune : (utf16Encode (c :: cs')).isEmpty = false := by
      rcases hq : utf16Encode (c :: cs') with _ | ⟨u, us⟩
      · exact absurd hq (utf16Encode_cons_ne_nil c cs')
      · rfl
    obtain ⟨hok, b0, hsome, hcont, hclen, hwf, hinv⟩ :=
      create_from_text_spec (t :: ts) (utf16Encode (c :: cs')) rfl hU hune
    refine ⟨b0, hsome, ?_⟩
    unfold qalam_buffer_get_content
    rw [if_neg (by omega)]
    have hclen0 : ¬ buffer_content_length b0 = 0 := by
      rw [hclen]
      intro hx
      exact utf16Encode_cons_ne_nil c cs' (List.length_eq_zero.mp hx)
    rw [if_neg hclen0]
    have hdec16 : utf16_to_utf8 (logicalContent b0) = some (t :: ts) := by
      rw [hcont]
      unfold utf16_to_utf8
      rw [utf16_decode_encode (c :: cs') (utf8Decode_valid _ _ hdec)]
      rw [Option.map_some']
      rw [utf8Encode_decode _ _ hdec]
    rw [hdec16]
    simp only []
    rw [if_pos (by omega)]

/-- C1 witness: a newline and an astral character survive the round trip. -/
theorem claim_C1_roundtrip_witness :
    utf8Decode [104, 10, 240, 144, 128, 128] = some [104, 10, 65536] ∧
    ([104, 10, 240, 144, 128, 128] : List Nat).length < 10 ∧
    ∃ b0, (qalam_buffer_create_from_text [104, 10, 240, 144, 128, 128]).2 = some b0 ∧
      qalam_buffer_get_content b0 10 =
        (QalamResult.ok, [104, 10, 240, 144, 128, 128],
          ([104, 10, 240, 144, 128, 128] : List Nat).length) :=
  ⟨by decide, by decide,
    claim_C1_roundtrip [104, 10, 240, 144, 128, 128] [104, 10, 65536] 10 (by decide)
      (by decide)⟩

/-!
## Claim C3: the surrogate-pair guard of delete
-/

/-- C3: when the clamped deletion span of qalam_buffer_delete would end
between a high surrogate and its matching low surrogate (forward), or start
on a low surrogate preceded by its high surrogate (backward), the span is
extended by one code unit and the whole pair is removed. -/
theorem claim_C3_surrogate_guard (b : QalamBuffer) (count : Int) (hwf : BufferWF b) :
    (0 < count → 0 < deleteFwdT0 b count →
      fwdExtCond b.data b.gap_end (deleteFwdT0 b count) →
      deleteFwdSpan b count = deleteFwdT0 b count + 1 ∧
      logicalContent (qalam_buffer_delete b count).2 =
        (logicalContent b).take b.gap_start ++
          (logicalContent b).drop (b.gap_start + (deleteFwdT0 b count + 1))) ∧
    (count < 0 → 0 < deleteBwdT0 b count →
      bwdExtCond b.data b.gap_start (deleteBwdT0 b count) →
      deleteBwdSpan b count = deleteBwdT0 b count + 1 ∧
      logicalContent (qalam_buffer_delete b count).2 =
        (logicalContent b).take (b.gap_start - (deleteBwdT0 b count + 1)) ++
          (logicalContent b).drop b.gap_start) := by
  constructor
  · intro hpos ht0 hext
    have hspan : deleteFwdSpan b count = deleteFwdT0 b count + 1 := by
      unfold deleteFwdSpan
      rw [if_pos hext]
    refine ⟨hspan, ?_⟩
    have h := (delete_fwd_spec b count hwf hpos ht0).2.2.2.2.1
    rw [hspan] at h
    exact h
  · intro hneg ht0 hext
    have hspan : deleteBwdSpan b count = deleteBwdT0 b count + 1 := by
      unfold deleteBwdSpan
      rw [if_pos hext]
    refine ⟨hspan, ?_⟩
    have h := (delete_bwd_spec b count hwf hneg ht0).2.2.2.2.1
    rw [hspan] at h
    exact h

/-- C3 witness: the claim's own scenario, content A + surrogate pair + B with
the gap (cursor) at offset 1; delete(1) must take the whole pair with it. -/
theorem claim_C3_surrogate_guard_witness :
    BufferWF ⟨[65, 55296, 56320, 66], 1, 1, 0, 1, 1, zeroSelection, [], false, false⟩ ∧
    (0 : Int) < 1 ∧
    0 < deleteFwdT0 ⟨[65, 55296, 56320, 66], 1, 1, 0, 1, 1, zeroSelection, [], false,
      false⟩ 1 ∧
    fwdExtCond [65, 55296, 56320, 66] 1
      (deleteFwdT0 ⟨[65, 55296, 56320, 66], 1, 1, 0, 1, 1, zeroSelection, [], false,
        false⟩ 1) ∧
    (deleteFwdSpan ⟨[65, 55296, 56320, 66], 1, 1, 0, 1, 1, zeroSelection, [], false,
        false⟩ 1 =
      deleteFwdT0 ⟨[65, 55296, 56320, 66], 1, 1, 0, 1, 1, zeroSelection, [], false,
        false⟩ 1 + 1 ∧
    logicalContent (qalam_buffer_delete
        ⟨[65, 55296, 56320, 66], 1, 1, 0, 1, 1, zeroSelection, [], false, false⟩ 1).2 =
      (logicalContent ⟨[65, 55296, 56320, 66], 1, 1, 0, 1, 1, zeroSelection, [], false,
        false⟩).take 1 ++
      (logicalContent ⟨[65, 55296, 56320, 66], 1, 1, 0, 1, 1, zeroSelection, [], false,
        false⟩).drop (1 + (deleteFwdT0 ⟨[65, 55296, 56320, 66], 1, 1, 0, 1, 1,
          zeroSelection, [], false, false⟩ 1 + 1))) :=
  ⟨by decide, by decide, by decide, by decide,
    (claim_C3_surrogate_guard
      ⟨[65, 55296, 56320, 66], 1, 1, 0, 1, 1, zeroSelection, [], false, false⟩ 1
      (by decide)).1 (by decide) (by decide) (by decide)⟩

/-!
## Claim C6: replace is not atomic
-/

/-- C6: replace is delete-then-insert; when the delete half has committed and
the insert half fails to decode its text, the call reports the encoding error
and leaves the buffer with the range deleted and nothing inserted. -/
theorem claim_C6_replace_nonatomic (b : QalamBuffer) (s e : Nat) (text : List Nat)
    (hwf : BufferWF b) (hse : s ≤ e) (hsle : s ≤ buffer_content_length b)
    (htne : text.isEmpty = false) (hU : utf8_to_utf16 text = none) :
    (qalam_buffer_replace b s e text).1 = QalamResult.errEncoding ∧
    logicalContent (qalam_buffer_replace b s e text).2 =
      (logicalContent b).take s ++ (logicalContent b).drop (drEnd b s e) := by
  have hds : drStart s e = s := by
    unfold drStart
    rw [if_neg (by omega)]
  have hle : ¬ drStart s e > buffer_content_length b := by omega
  have hsraw : drStart s e ≤ drEndRaw s e := by
    unfold drStart drEndRaw
    split <;> omega
  have hse2 : drStart s e ≤ drEnd b s e := by
    unfold drEnd
    split <;> omega
  have helen : drEnd b s e ≤ buffer_content_length b := by
    unfold drEnd
    split <;> omega
  by_cases h0 : drEnd b s e - drStart s e = 0
  · have hnoop := delete_range_noop b s e hle h0
    unfold qalam_buffer_replace
    rw [hnoop]
    simp only []
    rw [insert_encoding_fail _ text htne hU]
    refine ⟨rfl, ?_⟩
    show logicalContent (buffer_move_gap_to b s) = _
    rw [(move_gap_to_spec b s hwf hsle).2.2.2]
    rw [show drEnd b s e = s from by omega]
    exact (List.take_append_drop _ _).symm
  · obtain ⟨hok, hgs, hcont, hwf2, hlen, hinvp, hsel⟩ :=
      delete_range_ok_spec b s e hwf hle h0
    have hE : qalam_buffer_delete_range b s e =
        (QalamResult.ok, (qalam_buffer_delete_range b s e).2) := by
      rcases hQ : qalam_buffer_delete_range b s e with ⟨r0, b1⟩
      rw [hQ] at hok
      have hr : r0 = QalamResult.ok := hok
      rw [hr]
    rw [replace_ok_eq b s e text _ hE]
    rw [insert_encoding_fail _ text htne hU]
    refine ⟨rfl, ?_⟩
    show logicalContent (buffer_move_gap_to (qalam_buffer_delete_range b s e).2 s) = _
    have hsle2 : s ≤ buffer_content_length (qalam_buffer_delete_range b s e).2 := by
      rw [hlen]
      omega
    rw [(move_gap_to_spec _ s hwf2 hsle2).2.2.2, hcont, hds]

/-- C6 witness: replacing "bc" inside "abc" by an invalid UTF-8 byte deletes
the range and then reports the encoding error. -/
theorem claim_C6_replace_nonatomic_witness :
    BufferWF ⟨[97, 98, 99], 3, 3, 0, 3, 1, zeroSelection, [], false, false⟩ ∧
    (1 : Nat) ≤ 2 ∧
    1 ≤ buffer_content_length ⟨[97, 98, 99], 3, 3, 0, 3, 1, zeroSelection, [], false,
      false⟩ ∧
    ([255] : List Nat).isEmpty = false ∧
    utf8_to_utf16 [255] = none ∧
    ((qalam_buffer_replace ⟨[97, 98, 99], 3, 3, 0, 3, 1, zeroSelection, [], false,
        false⟩ 1 2 [255]).1 = QalamResult.errEncoding ∧
    logicalContent (qalam_buffer_replace ⟨[97, 98, 99], 3, 3, 0, 3, 1, zeroSelection,
        [], false, false⟩ 1 2 [255]).2 =
      (logicalContent ⟨[97, 98, 99], 3, 3, 0, 3, 1, zeroSelection, [], false,
        false⟩).take 1 ++
      (logicalContent ⟨[97, 98, 99], 3, 3, 0, 3, 1, zeroSelection, [], false,
        false⟩).drop (drEnd ⟨[97, 98, 99], 3, 3, 0, 3, 1, zeroSelection, [], false,
          false⟩ 1 2)) :=
  ⟨by decide, by decide, by decide, by decide, by decide,
    claim_C6_replace_nonatomic ⟨[97, 98, 99], 3, 3, 0, 3, 1, zeroSelection, [], false,
      false⟩ 1 2 [255] (by decide) (by decide) (by decide) (by decide) (by decide)⟩

end Qalam

namespace Qalam

/-!
## Claim C2: line-count consistency along operation sequences
-/

/-- C2 (amended): starting from any buffer qalam_buffer_create_from_text
returns, every sequence of public operations in which each replace call has
start_offset at most end_offset keeps line_count equal to one plus the number
of newline units in the content, and hence at least one. -/
theorem claim_C2_line_count (text : List Nat) (b0 : QalamBuffer)
    (hcreate : (qalam_buffer_create_from_text text).2 = some b0)
    (ops : List BufferOp) (hops : ∀ op ∈ ops, replaceArgsOK op = true) :
    (execOps b0 ops).line_count = 1 + count10 (logicalContent (execOps b0 ops)) ∧
    1 ≤ (execOps b0 ops).line_count := by
  have h := execOps_preserves_inv ops b0 hops (create_from_text_inv text b0 hcreate)
  have h2 : (execOps b0 ops).line_count =
      1 + count10 (logicalContent (execOps b0 ops)) := h.2
  exact ⟨h2, by omega⟩

/-- C2 witness: inserting a newline then moving the cursor keeps the count. -/
theorem claim_C2_line_count_witness :
    (qalam_buffer_create_from_text []).2 = some qalam_buffer_create ∧
    (∀ op ∈ ([BufferOp.insert [10], BufferOp.setCursor 0 0] : List BufferOp),
      replaceArgsOK op = true) ∧
    ((execOps qalam_buffer_create
        [BufferOp.insert [10], BufferOp.setCursor 0 0]).line_count =
      1 + count10 (logicalContent (execOps qalam_buffer_create
        [BufferOp.insert [10], BufferOp.setCursor 0 0])) ∧
    1 ≤ (execOps qalam_buffer_create
        [BufferOp.insert [10], BufferOp.setCursor 0 0]).line_count) :=
  ⟨rfl, by decide,
    claim_C2_line_count [] qalam_buffer_create rfl
      [BufferOp.insert [10], BufferOp.setCursor 0 0] (by decide)⟩

set_option maxRecDepth 8000 in
/-- Inserting one newline into a fresh buffer, written out explicitly. -/
theorem c2_insert_eq : qalam_buffer_insert qalam_buffer_create [10] =
    (QalamResult.ok, buffer_update_cursor_from_offset
    ⟨[10] ++ (List.replicate 4096 0).drop 1, 1, 4096, 0, 0, 2, zeroSelection, [],
      true, false⟩) := by
  unfold qalam_buffer_insert
  rw [if_neg (by decide), show utf8_to_utf16 [10] = some [10] from by decide]
  simp only []
  rw [if_neg (by decide)]
  rw [ensure_gap_noop qalam_buffer_create ([10] : List Nat).length (by decide)]
  simp only []
  rfl

/-- Inserting an empty text always takes the early success return. -/
theorem insert_nil_eq (bb : QalamBuffer) :
    qalam_buffer_insert bb [] = (QalamResult.ok, bb) := by
  unfold qalam_buffer_insert
  rw [if_pos (show ([] : List Nat).isEmpty = true from rfl)]

/-!
## Claim C4: the cached cursor against the content walk
-/

/-- C4 (amended): after a successful qalam_buffer_insert of nonempty text
(and a successful qalam_buffer_insert_at, which delegates to it), the cached
cursor_line and cursor_column equal the line and column obtained by walking
the logical content from offset 0 to gap_start; the recomputation does not
happen on the zero-length early return. -/
theorem claim_C4_cursor_walk (b : QalamBuffer) (text : List Nat) (offset : Nat)
    (hwf : BufferWF b) (htne : text.isEmpty = false) :
    ((qalam_buffer_insert b text).1 = QalamResult.ok →
      ((qalam_buffer_insert b text).2.cursor_line,
        (qalam_buffer_insert b text).2.cursor_column) =
        specCursorWalk (qalam_buffer_insert b text).2) ∧
    ((qalam_buffer_insert_at b offset text).1 = QalamResult.ok →
      ((qalam_buffer_insert_at b offset text).2.cursor_line,
        (qalam_buffer_insert_at b offset text).2.cursor_column) =
        specCursorWalk (qalam_buffer_insert_at b offset text).2) := by
  constructor
  · exact insert_cursor_walk b text hwf htne
  · intro hok
    by_cases hoff : offset > buffer_content_length b
    · have heq : qalam_buffer_insert_at b offset text =
          (QalamResult.errInvalidPosition, b) := by
        unfold qalam_buffer_insert_at
        rw [if_pos hoff]
      rw [heq] at hok
      exact QalamResult.noConfusion hok
    · have heq : qalam_buffer_insert_at b offset text =
          qalam_buffer_insert (buffer_move_gap_to b offset) text := by
        unfold qalam_buffer_insert_at
        rw [if_neg hoff]
      rw [heq] at hok ⊢
      exact insert_cursor_walk _ text (move_gap_to_wf b offset hwf (by omega)) htne hok

/-- C4 witness: the empty buffer and the one-byte text 'a'. -/
theorem claim_C4_cursor_walk_witness :
    BufferWF ⟨[], 0, 0, 0, 0, 1, zeroSelection, [], false, false⟩ ∧
    ([97] : List Nat).isEmpty = false ∧
    (((qalam_buffer_insert ⟨[], 0, 0, 0, 0, 1, zeroSelection, [], false, false⟩
        [97]).1 = QalamResult.ok →
      ((qalam_buffer_insert ⟨[], 0, 0, 0, 0, 1, zeroSelection, [], false, false⟩
          [97]).2.cursor_line,
        (qalam_buffer_insert ⟨[], 0, 0, 0, 0, 1, zeroSelection, [], false, false⟩
          [97]).2.cursor_column) =
        specCursorWalk (qalam_buffer_insert ⟨[], 0, 0, 0, 0, 1, zeroSelection, [],
          false, false⟩ [97]).2) ∧
    ((qalam_buffer_insert_at ⟨[], 0, 0, 0, 0, 1, zeroSelection, [], false, false⟩
        0 [97]).1 = QalamResult.ok →
      ((qalam_buffer_insert_at ⟨[], 0, 0, 0, 0, 1, zeroSelection, [], false, false⟩
          0 [97]).2.cursor_line,
        (qalam_buffer_insert_at ⟨[], 0, 0, 0, 0, 1, zeroSelection, [], false, false⟩
          0 [97]).2.cursor_column) =
        specCursorWalk (qalam_buffer_insert_at ⟨[], 0, 0, 0, 0, 1, zeroSelection, [],
          false, false⟩ 0 [97]).2)) :=
  ⟨by decide, by decide,
    claim_C4_cursor_walk ⟨[], 0, 0, 0, 0, 1, zeroSelection, [], false, false⟩ [97] 0
      (by decide) (by decide)⟩

set_option maxRecDepth 8000 in
/-- Inserting "a\nb" into a fresh buffer, written out explicitly. -/
theorem c4_insert_eq : qalam_buffer_insert qalam_buffer_create [97, 10, 98] =
    (QalamResult.ok, buffer_update_cursor_from_offset
    ⟨[97, 10, 98] ++ (List.replicate 4096 0).drop 3, 3, 4096, 0, 0, 2, zeroSelection,
      [], true, false⟩) := by
  unfold qalam_buffer_insert
  rw [if_neg (by decide),
    show utf8_to_utf16 [97, 10, 98] = some [97, 10, 98] from by decide]
  simp only []
  rw [if_neg (by decide)]
  rw [ensure_gap_noop qalam_buffer_create ([97, 10, 98] : List Nat).length (by decide)]
  simp only []
  rfl

set_option maxRecDepth 8000 in
/-- C4 counterexample to the claim as stated: qalam_buffer_insert_at with
zero-length text moves the gap to the target offset, takes the early success
return of insert, and never recomputes the cursor, which keeps the stale
(1, 1) while the walk from the buffer start to gap_start gives (0, 0). -/
theorem claim_C4_counterexample :
    (qalam_buffer_insert_at
      (qalam_buffer_insert qalam_buffer_create [97, 10, 98]).2 0 []).1 =
      QalamResult.ok ∧
    ((qalam_buffer_insert_at
        (qalam_buffer_insert qalam_buffer_create [97, 10, 98]).2 0 []).2.cursor_line,
      (qalam_buffer_insert_at
        (qalam_buffer_insert qalam_buffer_create [97, 10, 98]).2 0 []).2.cursor_column) ≠
      specCursorWalk (qalam_buffer_insert_at
        (qalam_buffer_insert qalam_buffer_create [97, 10, 98]).2 0 []).2 := by
  have hd1len4 : ([97, 10, 98] ++ (List.replicate 4096 0).drop 3).length = 4096 := by
    rw [List.length_append, List.length_drop, List.length_replicate]
    decide
  have hwfB14 : BufferWF (buffer_update_cursor_from_offset
    ⟨[97, 10, 98] ++ (List.replicate 4096 0).drop 3, 3, 4096, 0, 0, 2, zeroSelection,
      [], true, false⟩) := by
    constructor
    · show (3 : Nat) ≤ 4096
      decide
    · show (4096 : Nat) ≤ ([97, 10, 98] ++ (List.replicate 4096 0).drop 3).length
      exact le_of_eq hd1len4.symm
  have heqIA : qalam_buffer_insert_at (buffer_update_cursor_from_offset
    ⟨[97, 10, 98] ++ (List.replicate 4096 0).drop 3, 3, 4096, 0, 0, 2, zeroSelection,
      [], true, false⟩) 0 [] =
      (QalamResult.ok, buffer_move_gap_to (buffer_update_cursor_from_offset
    ⟨[97, 10, 98] ++ (List.replicate 4096 0).drop 3, 3, 4096, 0, 0, 2, zeroSelection,
      [], true, false⟩) 0) := by
    unfold qalam_buffer_insert_at
    rw [if_neg (by omega)]
    exact insert_nil_eq _
  rw [c4_insert_eq]
  simp only []
  rw [heqIA]
  simp only []
  refine ⟨trivial, ?_⟩
  rw [(move_gap_to_fields (buffer_update_cursor_from_offset
    ⟨[97, 10, 98] ++ (List.replicate 4096 0).drop 3, 3, 4096, 0, 0, 2, zeroSelection,
      [], true, false⟩) 0).1, (move_gap_to_fields (buffer_update_cursor_from_offset
    ⟨[97, 10, 98] ++ (List.replicate 4096 0).drop 3, 3, 4096, 0, 0, 2, zeroSelection,
      [], true, false⟩) 0).2.1]
  have hwalk : specCursorWalk (buffer_move_gap_to (buffer_update_cursor_from_offset
    ⟨[97, 10, 98] ++ (List.replicate 4096 0).drop 3, 3, 4096, 0, 0, 2, zeroSelection,
      [], true, false⟩) 0) = (0, 0) := by
    unfold specCursorWalk
    rw [(move_gap_to_spec (buffer_update_cursor_from_offset
    ⟨[97, 10, 98] ++ (List.replicate 4096 0).drop 3, 3, 4096, 0, 0, 2, zeroSelection,
      [], true, false⟩) 0 hwfB14 (Nat.zero_le _)).1]
    rw [List.take_zero]
    rfl
  rw [hwalk]
  decide

end Qalam

namespace Qalam

set_option maxRecDepth 8000 in
/-- The replace half of the C2 counterexample, written out explicitly: with
one newline as content, replace with a swapped range whose raw start is 4095
moves the gap past the content end and drags the deleted newline back into
the content region while line_count stays 1. -/
theorem c2_replace_eq :
    qalam_buffer_replace (buffer_update_cursor_from_offset
    ⟨[10] ++ (List.replicate 4096 0).drop 1, 1, 4096, 0, 0, 2, zeroSelection, [],
      true, false⟩) 4095 0 [] =
    (QalamResult.ok,
      ⟨[10], 4095, 8191, 0, 0, 1, zeroSelection, [], true, false⟩) := by
  have hd1len : ([10] ++ (List.replicate 4096 0).drop 1).length = 4096 := by
    rw [List.length_append, List.length_drop, List.length_replicate]
    decide
  have hclB1 : buffer_content_length (buffer_update_cursor_from_offset
    ⟨[10] ++ (List.replicate 4096 0).drop 1, 1, 4096, 0, 0, 2, zeroSelection, [],
      true, false⟩) = 1 := by
    unfold buffer_content_length capacity buffer_gap_size buffer_update_cursor_from_offset
    simp only []
    rw [hd1len]
  have hlcB1 : (buffer_update_cursor_from_offset
    ⟨[10] ++ (List.replicate 4096 0).drop 1, 1, 4096, 0, 0, 2, zeroSelection, [],
      true, false⟩).line_count = 2 := rfl
  have hdropD1 : ([10] ++ (List.replicate 4096 0).drop 1).drop 4096 = [] :=
    List.drop_eq_nil_of_le (le_of_eq hd1len)
  have htk : (([10] ++ (List.replicate 4096 0).drop 1).take 4095).length = 4095 := by
    rw [List.length_take, hd1len]
    decide
  have hd2drop : (([10] ++ (List.replicate 4096 0).drop 1).take 4095 ++ [10]).drop 4096 = [] := by
    apply List.drop_eq_nil_of_le
    rw [List.length_append, htk]
    decide
  have hd2tail : (([10] ++ (List.replicate 4096 0).drop 1).take 4095 ++ [10]).drop 4095 = [10] :=
    List.drop_left' htk
  have hcontB1 : logicalContent (buffer_update_cursor_from_offset
    ⟨[10] ++ (List.replicate 4096 0).drop 1, 1, 4096, 0, 0, 2, zeroSelection, [],
      true, false⟩) = [10] := by
    show ([10] ++ (List.replicate 4096 0).drop 1).take 1 ++ ([10] ++ (List.replicate 4096 0).drop 1).drop 4096 = [10]
    rw [hdropD1, List.append_nil]
    rfl
  have hdrS : drStart 4095 0 = 0 := by decide
  have hdrE : drEnd (buffer_update_cursor_from_offset
    ⟨[10] ++ (List.replicate 4096 0).drop 1, 1, 4096, 0, 0, 2, zeroSelection, [],
      true, false⟩) 4095 0 = 1 := by
    unfold drEnd drEndRaw
    rw [hclB1]
    decide
  have hle : ¬ drStart 4095 0 > buffer_content_length (buffer_update_cursor_from_offset
    ⟨[10] ++ (List.replicate 4096 0).drop 1, 1, 4096, 0, 0, 2, zeroSelection, [],
      true, false⟩) := by
    rw [hdrS]
    omega
  have hne : ¬ drEnd (buffer_update_cursor_from_offset
    ⟨[10] ++ (List.replicate 4096 0).drop 1, 1, 4096, 0, 0, 2, zeroSelection, [],
      true, false⟩) 4095 0 - drStart 4095 0 = 0 := by
    rw [hdrE, hdrS]
    decide
  have hmv : buffer_move_gap_to (buffer_update_cursor_from_offset
    ⟨[10] ++ (List.replicate 4096 0).drop 1, 1, 4096, 0, 0, 2, zeroSelection, [],
      true, false⟩) 0 =
      { (buffer_update_cursor_from_offset
    ⟨[10] ++ (List.replicate 4096 0).drop 1, 1, 4096, 0, 0, 2, zeroSelection, [],
      true, false⟩) with
        data := ([10] ++ (List.replicate 4096 0).drop 1).take 4095 ++ [10] ++ ([10] ++ (List.replicate 4096 0).drop 1).drop 4096,
        gap_start := 0,
        gap_end := 4095 } := by
    unfold buffer_move_gap_to
    rw [if_neg (by decide), if_pos (by decide)]
    rfl
  have hnl0 : buffer_count_newlines_in_range (buffer_update_cursor_from_offset
    ⟨[10] ++ (List.replicate 4096 0).drop 1, 1, 4096, 0, 0, 2, zeroSelection, [],
      true, false⟩) 0 (1 - 0) = 1 := by
    unfold buffer_count_newlines_in_range
    rw [hcontB1, hclB1]
    decide
  have hdata3 :
      (([10] ++ (List.replicate 4096 0).drop 1).take 4095 ++ [10] ++ ([10] ++ (List.replicate 4096 0).drop 1).drop 4096).take 0 ++
        ((([10] ++ (List.replicate 4096 0).drop 1).take 4095 ++ [10] ++ ([10] ++ (List.replicate 4096 0).drop 1).drop 4096).drop 4096).take 4095 ++
        (([10] ++ (List.replicate 4096 0).drop 1).take 4095 ++ [10] ++ ([10] ++ (List.replicate 4096 0).drop 1).drop 4096).drop 4095 = [10] := by
    rw [List.take_zero, List.nil_append]
    rw [hdropD1, List.append_nil]
    rw [hd2drop, List.take_nil, List.nil_append]
    rw [hd2tail]
  unfold qalam_buffer_replace
  rw [delete_range_result (buffer_update_cursor_from_offset
    ⟨[10] ++ (List.replicate 4096 0).drop 1, 1, 4096, 0, 0, 2, zeroSelection, [],
      true, false⟩) 4095 0 hle hne]
  simp only []
  rw [insert_nil_eq]
  refine congrArg (Prod.mk QalamResult.ok) ?_
  rw [hdrS, hdrE, hmv, hnl0, hlcB1]
  rw [show (if (2 : Nat) - 1 < 1 then 1 else 2 - 1) = 1 from by decide]
  unfold buffer_move_gap_to
  rw [if_neg (by decide), if_neg (by decide)]
  unfold buffer_update_cursor_from_offset buffer_gap_size
  simp only []
  rw [show (4095 : Nat) + (1 - 0) = 4096 from rfl]
  rw [show (4095 : Nat) - 0 = 4095 from rfl]
  rw [show (0 : Nat) + 4095 = 4095 from rfl]
  rw [show (4096 : Nat) - 0 = 4096 from rfl]
  rw [show (4095 : Nat) + 4096 = 8191 from rfl]
  rw [hdata3]
  rfl

set_option maxRecDepth 8000 in
/-- C2 counterexample to the claim as stated: from a fresh buffer, inserting
a newline and then calling replace with the swapped range (4095, 0) leaves a
buffer whose content still holds the newline while line_count is 1. -/
theorem claim_C2_counterexample :
    ¬ LineCountInv (execOps qalam_buffer_create
      [BufferOp.insert [10], BufferOp.replace 4095 0 []]) := by
  show ¬ LineCountInv
    (qalam_buffer_replace (qalam_buffer_insert qalam_buffer_create [10]).2 4095 0 []).2
  rw [c2_insert_eq]
  simp only []
  rw [c2_replace_eq]
  simp only []
  unfold LineCountInv
  decide


end Qalam
